import Mathlib

/-!
Verification of the spacecore-orbits orbit/coverage engine.

Shallow embedding conventions:
* JS IEEE-754 doubles are modelled as exact real numbers (`ℝ`); numeric text
  parsed out of TLE lines is modelled as exact rationals (`ℚ`).
* JS `NaN` and the infinities are modelled as `none` in `Option`; arithmetic
  on such values propagates `none` (NaN-propagation).  A JS division whose
  divisor is zero (which yields `±Infinity`) is likewise modelled as `none`.
* Source files embedded here: `src/utils/tleParser.js` (shipped in this
  repository as `src/unnamed/part_001`), `src/components/TLESatellite.js`
  and `src/App.js`.
-/

/-- JS whitespace test (the whitespace characters that occur in TLE text). -/
def isWS (c : Char) : Bool := c = ' ' ∨ c = '\t' ∨ c = '\n' ∨ c = '\r'

/-- Decimal digit test, as used by `parseInt` / `parseFloat`. -/
def isDigitChar (c : Char) : Bool := '0' ≤ c ∧ c ≤ '9'

/-- Numeric value of a decimal digit character. -/
def digitVal (c : Char) : ℕ := c.toNat - '0'.toNat

/-- Split a character list into its longest leading run of decimal digits
(returned as digit values) and the rest. -/
def takeDigits : List Char → List ℕ × List Char
  | [] => ([], [])
  | c :: cs =>
    if isDigitChar c then
      let p := takeDigits cs
      (digitVal c :: p.1, p.2)
    else ([], c :: cs)

/-- The natural number denoted by a list of decimal digit values. -/
def natOfDigits (ds : List ℕ) : ℕ := ds.foldl (fun a d => 10 * a + d) 0

/-- JS `parseInt(s)` (decimal radix): skip whitespace, optional sign, then the
longest run of digits; `NaN` (here `none`) when no digit is found.  The hex
prefix case never occurs in TLE fields and is not modelled. -/
def jsParseIntCore (cs0 : List Char) : Option ℤ :=
  let cs1 := cs0.dropWhile isWS
  let sg : ℤ × List Char :=
    match cs1 with
    | '-' :: rest => (-1, rest)
    | '+' :: rest => (1, rest)
    | rest => (1, rest)
  let p := takeDigits sg.2
  if p.1.isEmpty then none else some (sg.1 * (natOfDigits p.1 : ℤ))

/-- JS `parseInt` on a string. -/
def jsParseInt (s : String) : Option ℤ := jsParseIntCore s.toList

/-- Exponent part of a JS float literal: after the `e`/`E` an optional sign and
digits; when no digit follows, `parseFloat` stops before the `e` and the
exponent is 0. -/
def readExp (cs : List Char) : ℤ :=
  let sg : ℤ × List Char :=
    match cs with
    | '-' :: rest => (-1, rest)
    | '+' :: rest => (1, rest)
    | rest => (1, rest)
  let p := takeDigits sg.2
  if p.1.isEmpty then 0 else sg.1 * (natOfDigits p.1 : ℤ)

/-- JS `parseFloat(s)`: skip whitespace, optional sign, integer digits,
optional fraction digits, optional exponent; the longest valid leading prefix
is converted and the rest ignored; `NaN` (`none`) when no digit at all is
found.  (The `Infinity` literal never occurs in TLE fields and is not
modelled.) -/
def jsParseFloatCore (cs0 : List Char) : Option ℚ :=
  let cs1 := cs0.dropWhile isWS
  let sg : ℚ × List Char :=
    match cs1 with
    | '-' :: rest => (-1, rest)
    | '+' :: rest => (1, rest)
    | rest => (1, rest)
  let ip := takeDigits sg.2
  let fp : List ℕ × List Char :=
    match ip.2 with
    | '.' :: rest => takeDigits rest
    | rest => ([], rest)
  if ip.1.isEmpty ∧ fp.1.isEmpty then none
  else
    let mantissa : ℚ := (natOfDigits ip.1 : ℚ) + (natOfDigits fp.1 : ℚ) / 10 ^ fp.1.length
    let e : ℤ :=
      match fp.2 with
      | 'e' :: rest => readExp rest
      | 'E' :: rest => readExp rest
      | _ => 0
    some (sg.1 * mantissa * 10 ^ e)

/-- JS `parseFloat` on a string. -/
def jsParseFloat (s : String) : Option ℚ := jsParseFloatCore s.toList

/-- JS `s.substring(a, b)`: the characters with indices in `[a, b)`. -/
def jsSubstring (s : String) (a b : ℕ) : String :=
  String.mk ((s.toList.drop a).take (b - a))

/-- JS `s.trim()`. -/
def jsTrim (s : String) : String :=
  String.mk (((s.toList.dropWhile isWS).reverse.dropWhile isWS).reverse)

/-- JS `s[0]` for a nonempty string (all uses are guarded by a length check). -/
def headChar (s : String) : Char := s.toList.headD ' '

/-- Earth radius constant of `tleParser.js` (km). -/
def EARTH_RADIUS : ℝ := 6378.137

/-- Earth's gravitational parameter (km³/s²), `tleParser.js`. -/
def MU : ℝ := 398600.4418

/-- The orbital-element record returned by `parseTLE`.  Fields mirror the JS
object; parsed numeric fields are `Option ℚ` (`none` = NaN), derived values
are `Option ℝ`.  The `epochDate` field of the JS object (a local-timezone
`Date`) is environment-dependent and not used by any claim, so it is not
modelled; `epochYear` holds the full (four-digit) year as in the source. -/
structure TLEData where
  name : String
  catalogNumber : Option ℤ
  epochYear : Option ℤ
  epochDay : Option ℚ
  inclination : Option ℚ
  raan : Option ℚ
  eccentricity : Option ℚ
  argumentOfPerigee : Option ℚ
  meanAnomaly : Option ℚ
  meanMotion : Option ℚ
  meanMotionDerivative : Option ℚ
  bstar : Option ℚ
  semiMajorAxis : Option ℝ
  perigeeAltitude : Option ℝ
  apogeeAltitude : Option ℝ
  period : Option ℝ

/-- The field extraction of `parseTLE` (the body after the format checks).
Each binding mirrors one line of `tleParser.js`. -/
noncomputable def parseTLEFields (tleLine1 tleLine2 name : String) : TLEData :=
  let catalogNumber := jsParseInt (jsTrim (jsSubstring tleLine1 2 7))
  let epochYear := jsParseInt (jsSubstring tleLine1 18 20)
  let epochDay := jsParseFloat (jsSubstring tleLine1 20 32)
  let meanMotionDerivative := jsParseFloat (jsSubstring tleLine1 33 43)
  let bstar : Option ℚ :=
    (jsParseFloat (jsSubstring tleLine1 53 61)).bind fun m =>
      (jsParseInt (jsSubstring tleLine1 59 61)).map fun e => m * 10 ^ e
  let inclination := jsParseFloat (jsSubstring tleLine2 8 16)
  let raan := jsParseFloat (jsSubstring tleLine2 17 25)
  let eccentricity := jsParseFloat ("0." ++ jsSubstring tleLine2 26 33)
  let argumentOfPerigee := jsParseFloat (jsSubstring tleLine2 34 42)
  let meanAnomaly := jsParseFloat (jsSubstring tleLine2 43 51)
  let meanMotion := jsParseFloat (jsSubstring tleLine2 52 63)
  let fullEpochYear := epochYear.map fun y => y + (if y < 57 then 2000 else 1900)
  let n : Option ℝ := meanMotion.map fun mm : ℚ => (mm : ℝ) * (2 * Real.pi) / (24 * 60 * 60)
  let a : Option ℝ := n.bind fun nv =>
    if nv = 0 then none else some ((MU / (nv * nv)) ^ ((1 : ℝ) / 3))
  { name := name
    catalogNumber := catalogNumber
    epochYear := fullEpochYear
    epochDay := epochDay
    inclination := inclination
    raan := raan
    eccentricity := eccentricity
    argumentOfPerigee := argumentOfPerigee
    meanAnomaly := meanAnomaly
    meanMotion := meanMotion
    meanMotionDerivative := meanMotionDerivative
    bstar := bstar
    semiMajorAxis := a
    perigeeAltitude := a.bind fun av => eccentricity.map fun e : ℚ => av * (1 - (e : ℝ)) - EARTH_RADIUS
    apogeeAltitude := a.bind fun av => eccentricity.map fun e : ℚ => av * (1 + (e : ℝ)) - EARTH_RADIUS
    period := n.bind fun nv => if nv = 0 then none else some (2 * Real.pi / nv / 60) }

/-- `parseTLE(line1, line2, name)` from `tleParser.js`.  The two explicit
format checks throw (modelled as `.error`); the numeric field extraction
itself never throws in JS (`parseInt`/`parseFloat` return NaN on failure), so
past the checks a record is always returned. -/
noncomputable def parseTLE (tleLine1 tleLine2 : String) (name : String := "Unknown") :
    Except String TLEData :=
  if tleLine1 = "" ∨ tleLine2 = "" ∨ tleLine1.length < 69 ∨ tleLine2.length < 69 then
    .error "Invalid TLE format: Lines must be at least 69 characters long"
  else if headChar tleLine1 ≠ '1' ∨ headChar tleLine2 ≠ '2' then
    .error "Invalid TLE format: Lines must start with 1 and 2"
  else
    .ok (parseTLEFields tleLine1 tleLine2 name)

/-- Whether an `Except` result is a success. -/
def exceptOk {ε α : Type} : Except ε α → Bool
  | .ok _ => true
  | .error _ => false

/-- Project a field out of a successful parse (`none` on error). -/
def okField {β : Type} (r : Except String TLEData) (f : TLEData → Option β) : Option β :=
  match r with
  | .ok d => f d
  | .error _ => none

/-- Line 1 of the bundled ISS fixture (`SAMPLE_TLES.ISS` in `tleParser.js`). -/
def issLine1 : String := "1 25544U 98067A   24001.00000000  .00020137  00000-0  16538-3 0  9993"

/-- Line 2 of the bundled ISS fixture. -/
def issLine2 : String := "2 25544  51.6461 339.2377 0001078  88.2548 271.9142 15.48919103123456"

/-- One Newton-Raphson sweep of the Kepler solver in
`calculateSatellitePosition`: iterate at most `fuel` times, stopping early
when the last step was smaller than `1e-12`. -/
noncomputable def solveKeplerGo (ecc M : ℝ) : ℕ → ℝ → ℝ
  | 0, E => E
  | fuel + 1, E =>
    let dE := (E - ecc * Real.sin E - M) / (1 - ecc * Real.cos E)
    let E2 := E - dE
    if |dE| < 1e-12 then E2 else solveKeplerGo ecc M fuel E2

/-- The Kepler-equation solver of `calculateSatellitePosition`: seed `E₀ = M`,
at most 10 Newton iterations. -/
noncomputable def solveKepler (ecc M : ℝ) : ℝ := solveKeplerGo ecc M 10 M

/-- A 3-component vector of JS numbers. -/
structure Vec3 where
  x : ℝ
  y : ℝ
  z : ℝ

/-- Scene-unit Earth radius of `TLESatellite.js` (`EARTH_RADIUS = 2`). -/
def SCENE_EARTH_RADIUS : ℝ := 2

/-- `REAL_EARTH_RADIUS_KM` of `App.js` (km, also `REAL_EARTH_RADIUS` in
`TLESatellite.js`). -/
def REAL_EARTH_RADIUS_KM : ℝ := 6378.137

/-- `totalEarthAreaKm2` of `App.js`. -/
noncomputable def totalEarthAreaKm2 : ℝ :=
  4 * Real.pi * REAL_EARTH_RADIUS_KM * REAL_EARTH_RADIUS_KM

/-- The real (km) distance from Earth center encoded by a scene-coordinate
satellite position, as computed at the top of `calculateCoverageGeometry`. -/
noncomputable def realSatDistanceOf (p : Vec3) : ℝ :=
  Real.sqrt (p.x * p.x + p.y * p.y + p.z * p.z) / SCENE_EARTH_RADIUS * REAL_EARTH_RADIUS_KM

/-- The record returned by `calculateCoverageGeometry` in `TLESatellite.js`. -/
structure CoverageGeometry where
  height : ℝ
  radius : ℝ
  angle : ℝ
  coverageRadius : ℝ
  coveragePercentage : ℝ
  coverageAreaKm2 : ℝ
  centralAngle : ℝ
  satelliteAltitudeKm : ℝ

open Classical in
/-- `calculateCoverageGeometry(satellitePosition)` of `TLESatellite.js`, with
the component-level `minElevationAngle` made an explicit argument.  Mirrors
the source line by line (including the clamping of `acos` arguments). -/
noncomputable def calculateCoverageGeometry (satellitePosition : Vec3)
    (minElevationAngle : ℝ) : CoverageGeometry :=
  let realSatDistance := realSatDistanceOf satellitePosition
  if realSatDistance ≤ REAL_EARTH_RADIUS_KM then
    { height := 0, radius := 0, angle := 0, coverageRadius := 0, coveragePercentage := 0,
      coverageAreaKm2 := 0, centralAngle := 0, satelliteAltitudeKm := 0 }
  else
    let degToRad := Real.pi / 180
    let eRad := max 0 (min 90 minElevationAngle) * degToRad
    let u := REAL_EARTH_RADIUS_KM / realSatDistance
    let acosArg := u * Real.cos eRad
    let psi_e := max 0 (Real.arccos (min 1 (max (-1) acosArg)) - eRad)
    let p := REAL_EARTH_RADIUS_KM * Real.cos psi_e
    let coneHeightReal := max 0 (realSatDistance - p)
    let coneBaseRadiusReal := REAL_EARTH_RADIUS_KM * Real.sin psi_e
    let coneHeight := coneHeightReal / REAL_EARTH_RADIUS_KM * SCENE_EARTH_RADIUS
    let coneBaseRadius := coneBaseRadiusReal / REAL_EARTH_RADIUS_KM * SCENE_EARTH_RADIUS
    let sphericalCapArea := 2 * Real.pi * REAL_EARTH_RADIUS_KM * REAL_EARTH_RADIUS_KM * (1 - Real.cos psi_e)
    let totalEarthArea := 4 * Real.pi * REAL_EARTH_RADIUS_KM * REAL_EARTH_RADIUS_KM
    let coveragePercentage := sphericalCapArea / totalEarthArea * 100
    let altitudeReal := realSatDistance - REAL_EARTH_RADIUS_KM
    { height := coneHeight, radius := coneBaseRadius, angle := psi_e,
      coverageRadius := coneBaseRadius, coveragePercentage := coveragePercentage,
      coverageAreaKm2 := sphericalCapArea, centralAngle := psi_e,
      satelliteAltitudeKm := altitudeReal }

/-- The single-cap coverage percentage formula of `calculateCoverageGeometry`
(`TLESatellite.js` lines 63-66) as a function of the central angle. -/
noncomputable def singleCapPercent (psi : ℝ) : ℝ :=
  2 * Real.pi * REAL_EARTH_RADIUS_KM * REAL_EARTH_RADIUS_KM * (1 - Real.cos psi) /
    (4 * Real.pi * REAL_EARTH_RADIUS_KM * REAL_EARTH_RADIUS_KM) * 100

/-- The per-satellite coverage payload consumed by `recomputeGlobalCoverage`
(`satelliteCoverageData[id]`): `none` direction models a missing field. -/
structure CoverageData where
  direction : Option Vec3
  centralAngle : ℝ

/-- One entry of the `tleSatellites` list together with its coverage lookup:
`showCoverage` flag and the (possibly absent) coverage data. -/
structure SatEntry where
  showCoverage : Bool
  cov : Option CoverageData

/-- An entry of the `rawSats` array in `recomputeGlobalCoverage`. -/
structure RawSat where
  ux : ℝ
  uy : ℝ
  uz : ℝ
  cosThreshold : ℝ
  psi : ℝ

open Classical in
/-- Normalisation of a coverage direction into a `rawSats` entry
(`App.js` lines 148-152); `Math.sqrt(..) || 1` maps a zero length to 1. -/
noncomputable def mkRawSat (c : CoverageData) (d : Vec3) : RawSat :=
  let dirLen0 := Real.sqrt (d.x * d.x + d.y * d.y + d.z * d.z)
  let dirLen := if dirLen0 = 0 then 1 else dirLen0
  { ux := d.x / dirLen, uy := d.y / dirLen, uz := d.z / dirLen,
    cosThreshold := Real.cos c.centralAngle, psi := c.centralAngle }

open Classical in
/-- The `rawSats` collection loop of `recomputeGlobalCoverage` (`App.js`
lines 144-153): keep active entries with present coverage data, present
direction and positive central angle.  (`isFinite` is identically true in the
real-number model, where `none` encodes non-finite values.) -/
noncomputable def buildRawSats (active : List SatEntry) : List RawSat :=
  active.filterMap fun s =>
    match s.cov with
    | none => none
    | some c =>
      match c.direction with
      | none => none
      | some d => if c.centralAngle ≤ 0 then none else some (mkRawSat c d)

/-- Angular separation between two cap axes (`App.js` lines 170-171). -/
noncomputable def sepOf (ai aj : RawSat) : ℝ :=
  Real.arccos (min 1 (max (-1) (ai.ux * aj.ux + ai.uy * aj.uy + ai.uz * aj.uz)))

/-- Cap `ai` is dominated by some cap in `others` (`App.js` line 172):
`ψⱼ ≥ ψᵢ + sep − 1e-12`. -/
def containedIn (ai : RawSat) (others : List RawSat) : Prop :=
  ∃ aj ∈ others, ai.psi + sepOf ai aj - 1e-12 ≤ aj.psi

open Classical in
/-- The domination-pruning loop of `recomputeGlobalCoverage` (`App.js` lines
162-178).  The JS loop tests cap `i` against every index `j ≠ i` of the full
`rawSats` array; here `before` holds the elements preceding the current one,
so the tested collection `before ++ after` is exactly the other entries. -/
noncomputable def pruneGo (before : List RawSat) : List RawSat → List RawSat
  | [] => []
  | a :: after =>
    if containedIn a (before ++ after) then pruneGo (before ++ [a]) after
    else a :: pruneGo (before ++ [a]) after

/-- Domination pruning over the whole `rawSats` list. -/
noncomputable def prune (l : List RawSat) : List RawSat := pruneGo [] l

/-- JS `Math.round` on the (exactly representable) grid arguments. -/
def jsRound (x : ℚ) : ℤ := ⌊x + 1 / 2⌋

/-- Number of latitude bands of the cached grid (`App.js` line 95). -/
def latStepsOf (latStepDeg : ℚ) : ℕ := (jsRound (180 / latStepDeg)).toNat

/-- Number of longitude cells of the cached grid (`App.js` line 96). -/
def lonStepsOf (lonStepDeg : ℚ) : ℕ := (jsRound (360 / lonStepDeg)).toNat

/-- The sample direction of grid cell `(i, j)` (`getLatLonGrid`, `App.js`
lines 100-123): latitude-band center and longitude-cell center. -/
noncomputable def gridPoint (latStepDeg lonStepDeg : ℚ) (i j : ℕ) : Vec3 :=
  let lat1 : ℝ := -90 + (i : ℝ) * (latStepDeg : ℝ)
  let lat2 : ℝ := lat1 + (latStepDeg : ℝ)
  let latCenter := (lat1 + lat2) / 2
  let phi := latCenter * Real.pi / 180
  let lonCenter : ℝ := -180 + ((j : ℝ) + 0.5) * (lonStepDeg : ℝ)
  let lambda := lonCenter * Real.pi / 180
  { x := Real.cos phi * Real.cos lambda, y := Real.sin phi, z := Real.cos phi * Real.sin lambda }

/-- The solid-angle weight of one cell of latitude band `i`
(`getLatLonGrid`, `App.js` lines 110-113): `Δλ (sin φ₂ − sin φ₁) / (4π)`. -/
noncomputable def bandAreaFracPerLon (latStepDeg lonStepDeg : ℚ) (i : ℕ) : ℝ :=
  let lat1 : ℝ := -90 + (i : ℝ) * (latStepDeg : ℝ)
  let lat2 : ℝ := lat1 + (latStepDeg : ℝ)
  ((lonStepDeg : ℝ) * Real.pi / 180) * (Real.sin (lat2 * Real.pi / 180) - Real.sin (lat1 * Real.pi / 180)) / (4 * Real.pi)

/-- The per-sample coverage test of `recomputeGlobalCoverage` (`App.js` lines
204-212): covered when the dot product with some surviving cap axis is at
least that cap's `cos ψ` threshold minus the `1e-12` slack. -/
def coveredAt (sats : List RawSat) (p : Vec3) : Prop :=
  ∃ s ∈ sats, s.cosThreshold ≤ p.x * s.ux + p.y * s.uy + p.z * s.uz + 1e-12

open Classical in
/-- The quadrature accumulation of `recomputeGlobalCoverage` (`App.js` lines
199-214); the JS loop runs over the flattened `points` array, which sums the
same family of terms band by band. -/
noncomputable def coveredFrac (sats : List RawSat) (latStepDeg lonStepDeg : ℚ) : ℝ :=
  ∑ i ∈ Finset.range (latStepsOf latStepDeg),
    ∑ j ∈ Finset.range (lonStepsOf lonStepDeg),
      if coveredAt sats (gridPoint latStepDeg lonStepDeg i j) then
        bandAreaFracPerLon latStepDeg lonStepDeg i
      else 0

/-- `sats.reduce((m, s) => Math.min(m, s.psi * 180 / Math.PI), Infinity)`
(`App.js` line 187).  On the nonempty lists it is applied to, the reduce with
`Infinity` start equals the fold from the first element's value; ℝ has no
infinity, so the empty case returns 0 (never used). -/
noncomputable def minPsiDeg : List RawSat → ℝ
  | [] => 0
  | s :: rest => rest.foldl (fun m t => min m (t.psi * 180 / Real.pi)) (s.psi * 180 / Real.pi)

open Classical in
/-- The adaptive resolution choice (`App.js` lines 188-194); `latStep` and
`lonStep` are always equal, so a single step is returned. -/
noncomputable def chooseStep (count : ℕ) (minPsi : ℝ) : ℚ :=
  if 40 < count ∨ minPsi < 3 then 1 / 4
  else if 20 < count ∨ minPsi < 6 then 1 / 2
  else 1

/-- `recomputeGlobalCoverage` of `App.js` as a pure function from the
satellite list (each entry paired with its coverage lookup) to the
`(globalCoveragePercent, globalCoverageAreaKm2)` pair it stores. -/
noncomputable def recomputeGlobalCoverage (tleSatellites : List SatEntry) : ℝ × ℝ :=
  let active := tleSatellites.filter (·.showCoverage)
  if active.isEmpty then (0, 0) else
  let rawSats := buildRawSats active
  if rawSats.isEmpty then (0, 0) else
  let sats := prune rawSats
  if sats.isEmpty then (0, 0) else
  let step := chooseStep sats.length (minPsiDeg sats)
  let percent := coveredFrac sats step step * 100
  (percent, percent / 100 * totalEarthAreaKm2)

/-- The same union computation on the full unpruned cap set.  This second
definition follows the claim's words "the union coverage computed over the
full unpruned set" and exists only to be compared with
`recomputeGlobalCoverage`. -/
noncomputable def recomputeGlobalCoverageUnpruned (tleSatellites : List SatEntry) : ℝ × ℝ :=
  let active := tleSatellites.filter (·.showCoverage)
  if active.isEmpty then (0, 0) else
  let rawSats := buildRawSats active
  if rawSats.isEmpty then (0, 0) else
  let step := chooseStep rawSats.length (minPsiDeg rawSats)
  let percent := coveredFrac rawSats step step * 100
  (percent, percent / 100 * totalEarthAreaKm2)

/-- A 69-character line 1 whose leading digit is right but every numeric
field of which is unparseable. -/
def badLine1 : String := "1xxxxxxxxxxxxxxxxxxxxxxxxxxxxxxxxxxxxxxxxxxxxxxxxxxxxxxxxxxxxxxxxxxxx"

/-- A 69-character line 2 whose leading digit is right but every numeric
field of which is unparseable. -/
def badLine2 : String := "2xxxxxxxxxxxxxxxxxxxxxxxxxxxxxxxxxxxxxxxxxxxxxxxxxxxxxxxxxxxxxxxxxxxx"

/-- C3.  The claim says `parse` fails with a FormatError if and only if a line
is short, a leading digit is wrong, or some fixed-column numeric field fails
to parse, and that a failing numeric field is never silently absorbed into a
returned record.  The code is wrong on the numeric-field half: JS
`parseInt`/`parseFloat` return NaN instead of throwing, so on two 69-character
lines with correct leading digits and garbage everywhere else `parseTLE`
returns a record whose numeric fields are all NaN.  (The short-line and
wrong-digit checks do throw, as witnessed by the last two conjuncts.) -/
theorem c3_nan_fields_silently_absorbed :
    exceptOk (parseTLE badLine1 badLine2 "X") = true ∧
    okField (parseTLE badLine1 badLine2 "X") (·.inclination) = none ∧
    okField (parseTLE badLine1 badLine2 "X") (·.meanMotion) = none ∧
    okField (parseTLE badLine1 badLine2 "X") (·.catalogNumber) = none ∧
    exceptOk (parseTLE "1 25544" issLine2 "X") = false ∧
    exceptOk (parseTLE issLine2 issLine2 "X") = false := by
  refine ⟨?_, ?_, ?_, ?_, ?_, ?_⟩ <;> with_unfolding_all rfl

/-- C7.  The claim says the drag term is decoded with the NORAD implicit
leading decimal point, so the ISS fixture's field `16538-3` should give
`0.16538e-3`.  The code computes `parseFloat(" 16538-3") * 10 ^ parseInt("-3")
= 16538e-3 = 16.538` instead: the implicit decimal point is missing, a factor
`1e5` discrepancy. -/
theorem c7_bstar_missing_implicit_point :
    okField (parseTLE issLine1 issLine2 "ISS (ZARYA)") (·.bstar) = some (16538 / 1000 : ℚ) ∧
    (16538 / 1000 : ℚ) ≠ (16538 / 10 ^ 8 : ℚ) := by
  constructor
  · with_unfolding_all rfl
  · norm_num

/-- C8.  If the (real-kilometre) distance of the satellite from the sphere
center is at most the Earth radius — including exact equality — the coverage
computation returns the all-zero degenerate cap record (ψ = 0, area = 0,
percentage = 0) and, being a total function, raises nothing. -/
theorem c8_subsurface_gives_degenerate_cap (pos : Vec3) (minElevationAngle : ℝ)
    (h : realSatDistanceOf pos ≤ REAL_EARTH_RADIUS_KM) :
    calculateCoverageGeometry pos minElevationAngle =
      { height := 0, radius := 0, angle := 0, coverageRadius := 0, coveragePercentage := 0,
        coverageAreaKm2 := 0, centralAngle := 0, satelliteAltitudeKm := 0 } := by
  rw [calculateCoverageGeometry]
  exact if_pos h

/-- Witness for C8 at the position `(0, 0, 0)` (distance 0 ≤ R). -/
theorem c8_subsurface_gives_degenerate_cap_witness :
    realSatDistanceOf ⟨0, 0, 0⟩ ≤ REAL_EARTH_RADIUS_KM ∧
    calculateCoverageGeometry ⟨0, 0, 0⟩ 5 =
      { height := 0, radius := 0, angle := 0, coverageRadius := 0, coveragePercentage := 0,
        coverageAreaKm2 := 0, centralAngle := 0, satelliteAltitudeKm := 0 } := by
  have h : realSatDistanceOf ⟨0, 0, 0⟩ ≤ REAL_EARTH_RADIUS_KM := by
    simp only [realSatDistanceOf, REAL_EARTH_RADIUS_KM, SCENE_EARTH_RADIUS]
    norm_num
  exact ⟨h, c8_subsurface_gives_degenerate_cap ⟨0, 0, 0⟩ 5 h⟩

/-- C9.  If no satellite is active, or every active satellite's coverage data
is absent, lacks a direction, or has non-positive central angle (the
non-finite case is vacuous in the real-number model, where non-finite values
are `none`), the union computation returns exactly `(0, 0)` and, being a
total function, raises nothing. -/
theorem c9_union_zero_when_no_effective_cap (tleSatellites : List SatEntry)
    (h : ∀ s ∈ tleSatellites, s.showCoverage = true →
      s.cov = none ∨ ∃ c, s.cov = some c ∧ (c.direction = none ∨ c.centralAngle ≤ 0)) :
    recomputeGlobalCoverage tleSatellites = (0, 0) := by
  by_cases hA : (tleSatellites.filter (·.showCoverage)).isEmpty
  · simp [recomputeGlobalCoverage, hA]
  · have hraw : buildRawSats (tleSatellites.filter (·.showCoverage)) = [] := by
      rw [buildRawSats, List.filterMap_eq_nil_iff]
      intro s hs
      rcases List.mem_filter.1 hs with ⟨hmem, hshow⟩
      rcases h s hmem (by simpa using hshow) with hnone | ⟨c, hc, hrest⟩
      · simp [hnone]
      · rcases hrest with hdir | hpsi
        · simp [hc, hdir]
        · simp only [hc]
          cases hd : c.direction with
          | none => rfl
          | some d => simp [hd, hpsi]
    simp [recomputeGlobalCoverage, hA, hraw]

/-- Witness for C9: one active satellite whose cap has a direction but a
negative central angle. -/
theorem c9_union_zero_when_no_effective_cap_witness :
    recomputeGlobalCoverage [⟨true, some ⟨some ⟨0, 1, 0⟩, -1⟩⟩] = (0, 0) := by
  refine c9_union_zero_when_no_effective_cap _ ?_
  intro s hs _
  simp only [List.mem_singleton] at hs
  subst hs
  exact Or.inr ⟨⟨some ⟨0, 1, 0⟩, -1⟩, rfl, Or.inr (by norm_num)⟩


/-- Total solid-angle weight of the grid at a given resolution: the sum of
`weights[...]` over all sample points pushed by `getLatLonGrid`. -/
noncomputable def gridTotalWeight (latStepDeg lonStepDeg : ℚ) : ℝ :=
  ∑ i ∈ Finset.range (latStepsOf latStepDeg),
    ∑ _j ∈ Finset.range (lonStepsOf lonStepDeg),
      bandAreaFracPerLon latStepDeg lonStepDeg i

lemma deg_to_rad_mem {x : ℝ} (h1 : -90 ≤ x) (h2 : x ≤ 90) :
    x * Real.pi / 180 ∈ Set.Icc (-(Real.pi / 2)) (Real.pi / 2) := by
  have hp : (0 : ℝ) < Real.pi / 180 := by positivity
  constructor
  · calc -(Real.pi / 2) = -90 * (Real.pi / 180) := by ring
      _ ≤ x * (Real.pi / 180) := mul_le_mul_of_nonneg_right h1 hp.le
      _ = x * Real.pi / 180 := by ring
  · calc x * Real.pi / 180 = x * (Real.pi / 180) := by ring
      _ ≤ 90 * (Real.pi / 180) := mul_le_mul_of_nonneg_right h2 hp.le
      _ = Real.pi / 2 := by ring

lemma sin_deg_mono {a b : ℝ} (ha : -90 ≤ a) (hab : a ≤ b) (hb : b ≤ 90) :
    Real.sin (a * Real.pi / 180) ≤ Real.sin (b * Real.pi / 180) := by
  have hp : (0 : ℝ) < Real.pi / 180 := by positivity
  refine Real.strictMonoOn_sin.monotoneOn (deg_to_rad_mem ha (hab.trans hb))
    (deg_to_rad_mem (ha.trans hab) hb) ?_
  calc a * Real.pi / 180 = a * (Real.pi / 180) := by ring
    _ ≤ b * (Real.pi / 180) := mul_le_mul_of_nonneg_right hab hp.le
    _ = b * Real.pi / 180 := by ring

lemma sin_deg_strict_mono {a b : ℝ} (ha : -90 ≤ a) (hab : a < b) (hb : b ≤ 90) :
    Real.sin (a * Real.pi / 180) < Real.sin (b * Real.pi / 180) := by
  have hp : (0 : ℝ) < Real.pi / 180 := by positivity
  refine Real.strictMonoOn_sin (deg_to_rad_mem ha (hab.le.trans hb))
    (deg_to_rad_mem (ha.trans hab.le) hb) ?_
  calc a * Real.pi / 180 = a * (Real.pi / 180) := by ring
    _ < b * (Real.pi / 180) := by exact mul_lt_mul_of_pos_right hab hp
    _ = b * Real.pi / 180 := by ring

lemma bandAreaFracPerLon_nonneg {s t : ℚ} (i : ℕ) (hs : 0 ≤ (s : ℝ)) (ht : 0 ≤ (t : ℝ))
    (hub : -90 + ((i : ℝ) + 1) * (s : ℝ) ≤ 90) :
    0 ≤ bandAreaFracPerLon s t i := by
  simp only [bandAreaFracPerLon]
  have hi : (0 : ℝ) ≤ (i : ℝ) * (s : ℝ) := mul_nonneg (Nat.cast_nonneg i) hs
  have h1 : (-90 : ℝ) ≤ -90 + (i : ℝ) * (s : ℝ) := by linarith
  have h2 : -90 + (i : ℝ) * (s : ℝ) ≤ -90 + (i : ℝ) * (s : ℝ) + (s : ℝ) := by linarith
  have h3 : -90 + (i : ℝ) * (s : ℝ) + (s : ℝ) ≤ 90 := by nlinarith
  have hsin := sin_deg_mono h1 h2 h3
  have hπ : (0 : ℝ) < Real.pi := Real.pi_pos
  apply div_nonneg
  · apply mul_nonneg (by positivity)
    linarith
  · positivity

lemma coveredFrac_nonneg {sats : List RawSat} {s t : ℚ} (hs : 0 ≤ (s : ℝ)) (ht : 0 ≤ (t : ℝ))
    (hN : ∀ i ∈ Finset.range (latStepsOf s), -90 + ((i : ℝ) + 1) * (s : ℝ) ≤ 90) :
    0 ≤ coveredFrac sats s t := by
  rw [coveredFrac]
  refine Finset.sum_nonneg fun i hi => Finset.sum_nonneg fun j _ => ?_
  by_cases hc : coveredAt sats (gridPoint s t i j)
  · rw [if_pos hc]; exact bandAreaFracPerLon_nonneg i hs ht (hN i hi)
  · rw [if_neg hc]

lemma coveredFrac_le_total {sats : List RawSat} {s t : ℚ} (hs : 0 ≤ (s : ℝ)) (ht : 0 ≤ (t : ℝ))
    (hN : ∀ i ∈ Finset.range (latStepsOf s), -90 + ((i : ℝ) + 1) * (s : ℝ) ≤ 90) :
    coveredFrac sats s t ≤ gridTotalWeight s t := by
  rw [coveredFrac, gridTotalWeight]
  refine Finset.sum_le_sum fun i hi => Finset.sum_le_sum fun j _ => ?_
  by_cases hc : coveredAt sats (gridPoint s t i j)
  · rw [if_pos hc]
  · rw [if_neg hc]; exact bandAreaFracPerLon_nonneg i hs ht (hN i hi)

lemma latStepsOf_quarter : latStepsOf (1 / 4) = 720 := by with_unfolding_all rfl

lemma latStepsOf_half : latStepsOf (1 / 2) = 360 := by with_unfolding_all rfl

lemma latStepsOf_one : latStepsOf 1 = 180 := by with_unfolding_all rfl

lemma lonStepsOf_quarter : lonStepsOf (1 / 4) = 1440 := by with_unfolding_all rfl

lemma lonStepsOf_half : lonStepsOf (1 / 2) = 720 := by with_unfolding_all rfl

lemma lonStepsOf_one : lonStepsOf 1 = 360 := by with_unfolding_all rfl

lemma gridTotalWeight_eq_one {s : ℚ} {N L : ℕ} (hN : latStepsOf s = N) (hL : lonStepsOf s = L)
    (hNs : (N : ℝ) * (s : ℝ) = 180) (hLs : (L : ℝ) * (s : ℝ) = 360) :
    gridTotalWeight s s = 1 := by
  have hπ : Real.pi ≠ 0 := Real.pi_ne_zero
  rw [gridTotalWeight, hN, hL]
  have hw : ∀ i : ℕ,
      bandAreaFracPerLon s s i =
        ((s : ℝ) * Real.pi / 180) / (4 * Real.pi) *
          (Real.sin ((-90 + ((i + 1 : ℕ) : ℝ) * (s : ℝ)) * Real.pi / 180) -
           Real.sin ((-90 + (i : ℝ) * (s : ℝ)) * Real.pi / 180)) := by
    intro i
    simp only [bandAreaFracPerLon]
    have harg : (-90 + (i : ℝ) * (s : ℝ) + (s : ℝ)) * Real.pi / 180 =
        (-90 + ((i + 1 : ℕ) : ℝ) * (s : ℝ)) * Real.pi / 180 := by
      push_cast
      ring
    rw [harg]
    ring
  calc (∑ i ∈ Finset.range N, ∑ _j ∈ Finset.range L, bandAreaFracPerLon s s i)
      = ∑ i ∈ Finset.range N, (L : ℝ) * bandAreaFracPerLon s s i := by
        refine Finset.sum_congr rfl fun i _ => ?_
        rw [Finset.sum_const, Finset.card_range, nsmul_eq_mul]
    _ = (L : ℝ) * ((s : ℝ) * Real.pi / 180 / (4 * Real.pi)) *
          ∑ i ∈ Finset.range N,
            (Real.sin ((-90 + ((i + 1 : ℕ) : ℝ) * (s : ℝ)) * Real.pi / 180) -
             Real.sin ((-90 + (i : ℝ) * (s : ℝ)) * Real.pi / 180)) := by
        rw [Finset.mul_sum]
        refine Finset.sum_congr rfl fun i _ => ?_
        rw [hw i]
        ring
    _ = 1 := by
        rw [Finset.sum_range_sub (fun k : ℕ => Real.sin ((-90 + (k : ℝ) * (s : ℝ)) * Real.pi / 180))]
        have hfN : (-90 + (N : ℝ) * (s : ℝ)) * Real.pi / 180 = Real.pi / 2 := by
          rw [hNs]; ring
        have hf0 : (-90 + ((0 : ℕ) : ℝ) * (s : ℝ)) * Real.pi / 180 = -(Real.pi / 2) := by
          push_cast; ring
        rw [hfN, hf0, Real.sin_pi_div_two, Real.sin_neg, Real.sin_pi_div_two]
        calc (L : ℝ) * ((s : ℝ) * Real.pi / 180 / (4 * Real.pi)) * (1 - -1)
            = ((L : ℝ) * (s : ℝ)) * (Real.pi / (360 * Real.pi)) := by ring
          _ = 360 * (Real.pi / (360 * Real.pi)) := by rw [hLs]
          _ = 1 := by field_simp

lemma gridTotalWeight_quarter : gridTotalWeight (1 / 4) (1 / 4) = 1 := by
  refine gridTotalWeight_eq_one latStepsOf_quarter lonStepsOf_quarter ?_ ?_ <;> norm_num

lemma gridTotalWeight_half : gridTotalWeight (1 / 2) (1 / 2) = 1 := by
  refine gridTotalWeight_eq_one latStepsOf_half lonStepsOf_half ?_ ?_ <;> norm_num

lemma gridTotalWeight_one : gridTotalWeight 1 1 = 1 := by
  refine gridTotalWeight_eq_one latStepsOf_one lonStepsOf_one ?_ ?_ <;> norm_num

lemma chooseStep_cases (count : ℕ) (minPsi : ℝ) :
    chooseStep count minPsi = 1 / 4 ∨ chooseStep count minPsi = 1 / 2 ∨
      chooseStep count minPsi = 1 := by
  rw [chooseStep]
  split_ifs <;> simp

lemma range_band_bound {s : ℚ} {N : ℕ} (hN : latStepsOf s = N) (hNs : (N : ℝ) * (s : ℝ) = 180)
    (hs : 0 ≤ (s : ℝ)) :
    ∀ i ∈ Finset.range (latStepsOf s), -90 + ((i : ℝ) + 1) * (s : ℝ) ≤ 90 := by
  intro i hi
  rw [hN] at hi
  have hiN : (i : ℝ) + 1 ≤ (N : ℝ) := by
    have := Finset.mem_range.1 hi
    exact_mod_cast Nat.succ_le_of_lt this
  nlinarith

lemma step_facts (st : ℚ) (h : st = 1 / 4 ∨ st = 1 / 2 ∨ st = 1) :
    0 ≤ (st : ℝ) ∧ gridTotalWeight st st = 1 ∧
      (∀ i ∈ Finset.range (latStepsOf st), -90 + ((i : ℝ) + 1) * (st : ℝ) ≤ 90) := by
  rcases h with h | h | h <;> subst h
  · exact ⟨by norm_num, gridTotalWeight_quarter,
      range_band_bound latStepsOf_quarter (by norm_num) (by norm_num)⟩
  · exact ⟨by norm_num, gridTotalWeight_half,
      range_band_bound latStepsOf_half (by norm_num) (by norm_num)⟩
  · exact ⟨by norm_num, gridTotalWeight_one,
      range_band_bound latStepsOf_one (by norm_num) (by norm_num)⟩

/-- C10.  The solid-angle weights of the grid sum to exactly 1 at each of the
three resolutions the estimator uses, and consequently the union coverage
percent returned by `recomputeGlobalCoverage` lies in `[0, 100]` for every
input satellite list. -/
theorem c10_grid_weights_sum_to_one_and_percent_bounded :
    gridTotalWeight (1 / 4) (1 / 4) = 1 ∧ gridTotalWeight (1 / 2) (1 / 2) = 1 ∧
    gridTotalWeight 1 1 = 1 ∧
    ∀ tleSatellites : List SatEntry,
      0 ≤ (recomputeGlobalCoverage tleSatellites).1 ∧
        (recomputeGlobalCoverage tleSatellites).1 ≤ 100 := by
  refine ⟨gridTotalWeight_quarter, gridTotalWeight_half, gridTotalWeight_one, fun l => ?_⟩
  by_cases h1 : (l.filter (·.showCoverage)).isEmpty
  · simp [recomputeGlobalCoverage, h1]
  by_cases h2 : (buildRawSats (l.filter (·.showCoverage))).isEmpty
  · simp [recomputeGlobalCoverage, h1, h2]
  by_cases h3 : (prune (buildRawSats (l.filter (·.showCoverage)))).isEmpty
  · simp [recomputeGlobalCoverage, h1, h2, h3]
  · have hfrac :
        0 ≤ coveredFrac (prune (buildRawSats (l.filter (·.showCoverage))))
              (chooseStep (prune (buildRawSats (l.filter (·.showCoverage)))).length
                (minPsiDeg (prune (buildRawSats (l.filter (·.showCoverage))))))
              (chooseStep (prune (buildRawSats (l.filter (·.showCoverage)))).length
                (minPsiDeg (prune (buildRawSats (l.filter (·.showCoverage)))))) ∧
        coveredFrac (prune (buildRawSats (l.filter (·.showCoverage))))
              (chooseStep (prune (buildRawSats (l.filter (·.showCoverage)))).length
                (minPsiDeg (prune (buildRawSats (l.filter (·.showCoverage))))))
              (chooseStep (prune (buildRawSats (l.filter (·.showCoverage)))).length
                (minPsiDeg (prune (buildRawSats (l.filter (·.showCoverage)))))) ≤ 1 := by
      obtain ⟨hs0, htot, hband⟩ :=
        step_facts _ (chooseStep_cases (prune (buildRawSats (l.filter (·.showCoverage)))).length
          (minPsiDeg (prune (buildRawSats (l.filter (·.showCoverage))))))
      exact ⟨coveredFrac_nonneg hs0 hs0 hband,
        (coveredFrac_le_total hs0 hs0 hband).trans htot.le⟩
    simp only [recomputeGlobalCoverage, h1, h2, h3, if_false, Bool.false_eq_true]
    constructor
    · nlinarith [hfrac.1]
    · nlinarith [hfrac.1, hfrac.2]

lemma rad_mem_Icc {x : ℝ} (h0 : 0 ≤ x) (h90 : x ≤ 90) :
    x * (Real.pi / 180) ∈ Set.Icc 0 (Real.pi / 2) := by
  have hp : (0 : ℝ) < Real.pi / 180 := by positivity
  constructor
  · positivity
  · calc x * (Real.pi / 180) ≤ 90 * (Real.pi / 180) := mul_le_mul_of_nonneg_right h90 hp.le
      _ = Real.pi / 2 := by ring

lemma arccos_sub_strictAntiOn {u : ℝ} (hu0 : 0 < u) (hu1 : u < 1) :
    StrictAntiOn (fun x => Real.arccos (u * Real.cos x) - x) (Set.Icc 0 (Real.pi / 2)) := by
  apply strictAntiOn_of_deriv_neg (convex_Icc _ _)
  · exact ((Real.continuous_arccos.comp
      (continuous_const.mul Real.continuous_cos)).sub continuous_id).continuousOn
  · intro x hx
    rw [interior_Icc] at hx
    obtain ⟨hx0, hxp⟩ := hx
    have hπ : (0 : ℝ) < Real.pi := Real.pi_pos
    have hcos0 : 0 < Real.cos x := Real.cos_pos_of_mem_Ioo ⟨by linarith, hxp⟩
    have hcos1 : Real.cos x ≤ 1 := Real.cos_le_one x
    have hsin0 : 0 < Real.sin x := Real.sin_pos_of_pos_of_lt_pi hx0 (by linarith)
    have hsin1 : Real.sin x ≤ 1 := Real.sin_le_one x
    have hc0 : 0 < u * Real.cos x := mul_pos hu0 hcos0
    have hc1 : u * Real.cos x < 1 := by nlinarith
    have hne1 : u * Real.cos x ≠ 1 := ne_of_lt hc1
    have hnem1 : u * Real.cos x ≠ -1 := by linarith
    have hsq : (u * Real.cos x) ^ 2 < 1 := by nlinarith
    have h1 : HasDerivAt (fun y => u * Real.cos y) (u * -Real.sin x) x :=
      (Real.hasDerivAt_cos x).const_mul u
    have h2 := (Real.hasDerivAt_arccos hnem1 hne1).comp x h1
    have hderiv : HasDerivAt (fun y => Real.arccos (u * Real.cos y) - y)
        (-(1 / Real.sqrt (1 - (u * Real.cos x) ^ 2)) * (u * -Real.sin x) - 1) x :=
      h2.sub (hasDerivAt_id x)
    rw [hderiv.deriv]
    have hsqrtpos : 0 < Real.sqrt (1 - (u * Real.cos x) ^ 2) :=
      Real.sqrt_pos.mpr (by linarith)
    have husin : 0 ≤ u * Real.sin x := by positivity
    have hlt : u * Real.sin x < Real.sqrt (1 - (u * Real.cos x) ^ 2) := by
      have hkey : (u * Real.sin x) ^ 2 + (u * Real.cos x) ^ 2 = u ^ 2 := by
        calc (u * Real.sin x) ^ 2 + (u * Real.cos x) ^ 2
            = u ^ 2 * (Real.sin x ^ 2 + Real.cos x ^ 2) := by ring
          _ = u ^ 2 := by rw [Real.sin_sq_add_cos_sq]; ring
      have hu2 : u ^ 2 < 1 := by nlinarith
      have hsq2 : (u * Real.sin x) ^ 2 < 1 - (u * Real.cos x) ^ 2 := by linarith
      calc u * Real.sin x = Real.sqrt ((u * Real.sin x) ^ 2) := (Real.sqrt_sq husin).symm
        _ < Real.sqrt (1 - (u * Real.cos x) ^ 2) :=
            Real.sqrt_lt_sqrt (by positivity) hsq2
    have hdivlt : u * Real.sin x / Real.sqrt (1 - (u * Real.cos x) ^ 2) < 1 :=
      (div_lt_one hsqrtpos).mpr hlt
    have hrw : -(1 / Real.sqrt (1 - (u * Real.cos x) ^ 2)) * (u * -Real.sin x) - 1 =
        u * Real.sin x / Real.sqrt (1 - (u * Real.cos x) ^ 2) - 1 := by ring
    rw [hrw]
    linarith

lemma centralAngle_formula (pos : Vec3) (h : REAL_EARTH_RADIUS_KM < realSatDistanceOf pos)
    (e : ℝ) (he0 : 0 ≤ e) (he1 : e ≤ 90) :
    (calculateCoverageGeometry pos e).centralAngle =
      max 0 (Real.arccos (REAL_EARTH_RADIUS_KM / realSatDistanceOf pos *
        Real.cos (e * (Real.pi / 180))) - e * (Real.pi / 180)) := by
  have hne : ¬(realSatDistanceOf pos ≤ REAL_EARTH_RADIUS_KM) := not_le.mpr h
  have hd0 : 0 < realSatDistanceOf pos := by
    have : (0 : ℝ) < REAL_EARTH_RADIUS_KM := by rw [REAL_EARTH_RADIUS_KM]; norm_num
    linarith
  have hu0 : 0 < REAL_EARTH_RADIUS_KM / realSatDistanceOf pos := by
    apply div_pos _ hd0
    rw [REAL_EARTH_RADIUS_KM]; norm_num
  have hu1 : REAL_EARTH_RADIUS_KM / realSatDistanceOf pos < 1 := (div_lt_one hd0).mpr h
  have heclamp : max 0 (min 90 e) = e := by rw [min_eq_right he1, max_eq_right he0]
  have hcosnn : 0 ≤ Real.cos (e * (Real.pi / 180)) := by
    apply Real.cos_nonneg_of_mem_Icc
    have hm := rad_mem_Icc he0 he1
    constructor
    · linarith [hm.1, Real.pi_pos]
    · exact hm.2
  have hcos1 : Real.cos (e * (Real.pi / 180)) ≤ 1 := Real.cos_le_one _
  have harg0 : (-1 : ℝ) ≤ REAL_EARTH_RADIUS_KM / realSatDistanceOf pos *
      Real.cos (e * (Real.pi / 180)) := by nlinarith
  have harg1 : REAL_EARTH_RADIUS_KM / realSatDistanceOf pos *
      Real.cos (e * (Real.pi / 180)) ≤ 1 := by nlinarith
  simp only [calculateCoverageGeometry, hne, if_false]
  rw [heclamp, max_eq_right harg0, min_eq_right harg1]

/-- C4.  For every satellite position strictly above the surface
(real distance `d > R`), the coverage central angle is a strictly decreasing
function of `minElevationDeg` on `[0°, 90°)`, and at 90° it is exactly 0. -/
theorem c4_central_angle_strictly_decreasing (pos : Vec3)
    (h : REAL_EARTH_RADIUS_KM < realSatDistanceOf pos) :
    StrictAntiOn (fun e => (calculateCoverageGeometry pos e).centralAngle) (Set.Ico 0 90) ∧
    (calculateCoverageGeometry pos 90).centralAngle = 0 := by
  have hd0 : 0 < realSatDistanceOf pos := by
    have : (0 : ℝ) < REAL_EARTH_RADIUS_KM := by rw [REAL_EARTH_RADIUS_KM]; norm_num
    linarith
  have hu0 : 0 < REAL_EARTH_RADIUS_KM / realSatDistanceOf pos := by
    apply div_pos _ hd0
    rw [REAL_EARTH_RADIUS_KM]; norm_num
  have hu1 : REAL_EARTH_RADIUS_KM / realSatDistanceOf pos < 1 := (div_lt_one hd0).mpr h
  have hanti := arccos_sub_strictAntiOn hu0 hu1
  have hpi2mem : Real.pi / 2 ∈ Set.Icc 0 (Real.pi / 2) :=
    ⟨by positivity, le_refl _⟩
  have hg_pi2 : Real.arccos (REAL_EARTH_RADIUS_KM / realSatDistanceOf pos *
      Real.cos (Real.pi / 2)) - Real.pi / 2 = 0 := by
    rw [Real.cos_pi_div_two, mul_zero, Real.arccos_zero]
    ring
  have hgpos : ∀ x : ℝ, 0 ≤ x → x < 90 →
      0 < Real.arccos (REAL_EARTH_RADIUS_KM / realSatDistanceOf pos *
        Real.cos (x * (Real.pi / 180))) - x * (Real.pi / 180) := by
    intro x hx0 hx90
    have hmem := rad_mem_Icc hx0 hx90.le
    have hlt : x * (Real.pi / 180) < Real.pi / 2 := by
      have hp : (0 : ℝ) < Real.pi / 180 := by positivity
      calc x * (Real.pi / 180) < 90 * (Real.pi / 180) := mul_lt_mul_of_pos_right hx90 hp
        _ = Real.pi / 2 := by ring
    have hval := hanti hmem hpi2mem hlt
    simp only at hval
    rw [hg_pi2] at hval
    linarith
  constructor
  · intro a ha b hb hab
    obtain ⟨ha0, ha90⟩ := ha
    obtain ⟨hb0, hb90⟩ := hb
    simp only
    rw [centralAngle_formula pos h a ha0 ha90.le, centralAngle_formula pos h b hb0 hb90.le]
    rw [max_eq_right (hgpos a ha0 ha90).le, max_eq_right (hgpos b hb0 hb90).le]
    have hp : (0 : ℝ) < Real.pi / 180 := by positivity
    exact hanti (rad_mem_Icc ha0 ha90.le) (rad_mem_Icc hb0 hb90.le)
      (mul_lt_mul_of_pos_right hab hp)
  · rw [centralAngle_formula pos h 90 (by norm_num) le_rfl]
    have h90 : (90 : ℝ) * (Real.pi / 180) = Real.pi / 2 := by ring
    rw [h90, hg_pi2]
    exact max_self 0

/-- Witness for C4 at the scene position `(0, 4, 0)` (real distance `2R`). -/
theorem c4_central_angle_strictly_decreasing_witness :
    REAL_EARTH_RADIUS_KM < realSatDistanceOf ⟨0, 4, 0⟩ ∧
    (StrictAntiOn (fun e => (calculateCoverageGeometry ⟨0, 4, 0⟩ e).centralAngle)
        (Set.Ico 0 90) ∧
      (calculateCoverageGeometry ⟨0, 4, 0⟩ 90).centralAngle = 0) := by
  have h : REAL_EARTH_RADIUS_KM < realSatDistanceOf ⟨0, 4, 0⟩ := by
    rw [realSatDistanceOf]
    have h16 : (0 : ℝ) * 0 + 4 * 4 + 0 * 0 = 4 ^ 2 := by norm_num
    rw [show ((⟨0, 4, 0⟩ : Vec3).x * (⟨0, 4, 0⟩ : Vec3).x + (⟨0, 4, 0⟩ : Vec3).y *
      (⟨0, 4, 0⟩ : Vec3).y + (⟨0, 4, 0⟩ : Vec3).z * (⟨0, 4, 0⟩ : Vec3).z) = 4 ^ 2 from by norm_num]
    rw [Real.sqrt_sq (by norm_num : (0:ℝ) ≤ 4)]
    rw [REAL_EARTH_RADIUS_KM, SCENE_EARTH_RADIUS]
    norm_num
  exact ⟨h, c4_central_angle_strictly_decreasing ⟨0, 4, 0⟩ h⟩

lemma iss_checks_pass :
    parseTLE issLine1 issLine2 "ISS (ZARYA)" =
      .ok (parseTLEFields issLine1 issLine2 "ISS (ZARYA)") := by
  rw [parseTLE, if_neg (by decide), if_neg (by decide)]

lemma iss_meanMotion_parse :
    jsParseFloat (jsSubstring issLine2 52 63) = some (15.48919103 : ℚ) := by
  with_unfolding_all rfl

lemma iss_ecc_parse :
    jsParseFloat ("0." ++ jsSubstring issLine2 26 33) = some (0.0001078 : ℚ) := by
  with_unfolding_all rfl

/-- The mean motion of the ISS fixture in rad/s, as computed in `parseTLE`. -/
noncomputable def nvISS : ℝ := ((15.48919103 : ℚ) : ℝ) * (2 * Real.pi) / (24 * 60 * 60)

lemma nvISS_ne_zero : nvISS ≠ 0 := by
  rw [nvISS]
  have h : ((15.48919103 : ℚ) : ℝ) = 15.48919103 := by norm_num
  rw [h]
  positivity

lemma iss_period_field :
    (parseTLEFields issLine1 issLine2 "ISS (ZARYA)").period =
      some (2 * Real.pi / nvISS / 60) := by
  simp only [parseTLEFields, iss_meanMotion_parse, Option.map_some', Option.some_bind]
  rw [if_neg (by rw [← nvISS]; exact nvISS_ne_zero)]
  rw [nvISS]

lemma iss_sma_field :
    (parseTLEFields issLine1 issLine2 "ISS (ZARYA)").semiMajorAxis =
      some ((MU / (nvISS * nvISS)) ^ ((1 : ℝ) / 3)) := by
  simp only [parseTLEFields, iss_meanMotion_parse, Option.map_some', Option.some_bind]
  rw [if_neg (by rw [← nvISS]; exact nvISS_ne_zero)]
  rw [nvISS]

lemma iss_perigee_field :
    (parseTLEFields issLine1 issLine2 "ISS (ZARYA)").perigeeAltitude =
      some ((MU / (nvISS * nvISS)) ^ ((1 : ℝ) / 3) * (1 - ((0.0001078 : ℚ) : ℝ)) -
        EARTH_RADIUS) := by
  simp only [parseTLEFields, iss_meanMotion_parse, iss_ecc_parse, Option.map_some',
    Option.some_bind]
  rw [if_neg (by rw [← nvISS]; exact nvISS_ne_zero)]
  simp only [Option.some_bind, Option.map_some']
  rw [nvISS]

lemma iss_apogee_field :
    (parseTLEFields issLine1 issLine2 "ISS (ZARYA)").apogeeAltitude =
      some ((MU / (nvISS * nvISS)) ^ ((1 : ℝ) / 3) * (1 + ((0.0001078 : ℚ) : ℝ)) -
        EARTH_RADIUS) := by
  simp only [parseTLEFields, iss_meanMotion_parse, iss_ecc_parse, Option.map_some',
    Option.some_bind]
  rw [if_neg (by rw [← nvISS]; exact nvISS_ne_zero)]
  simp only [Option.some_bind, Option.map_some']
  rw [nvISS]

lemma iss_sma_bounds :
    (6798.02 : ℝ) ≤ (MU / (nvISS * nvISS)) ^ ((1 : ℝ) / 3) ∧
      (MU / (nvISS * nvISS)) ^ ((1 : ℝ) / 3) ≤ 6798.03 := by
  have hq : ((15.48919103 : ℚ) : ℝ) = 15.48919103 := by norm_num
  have hπ0 : (0 : ℝ) < Real.pi := Real.pi_pos
  have hπlo : (3.141592 : ℝ) < Real.pi := Real.pi_gt_d6
  have hπhi : Real.pi < 3.141593 := Real.pi_lt_d6
  have hx : MU / (nvISS * nvISS) =
      398600.4418 * (24 * 60 * 60) ^ 2 / (4 * 15.48919103 ^ 2) / Real.pi ^ 2 := by
    rw [nvISS, hq, MU]
    field_simp
    ring
  have hKpos : (0 : ℝ) < 398600.4418 * (24 * 60 * 60) ^ 2 / (4 * 15.48919103 ^ 2) := by
    norm_num
  have hxlo : (6798.02 : ℝ) ^ (3 : ℕ) ≤ MU / (nvISS * nvISS) := by
    rw [hx]
    have h1 : Real.pi ^ 2 ≤ 3.141593 ^ 2 := by nlinarith
    have h2 : 398600.4418 * (24 * 60 * 60) ^ 2 / (4 * 15.48919103 ^ 2) / 3.141593 ^ 2 ≤
        398600.4418 * (24 * 60 * 60) ^ 2 / (4 * 15.48919103 ^ 2) / Real.pi ^ 2 :=
      div_le_div_of_nonneg_left hKpos.le (by positivity) h1
    have h3 : (6798.02 : ℝ) ^ (3 : ℕ) ≤
        398600.4418 * (24 * 60 * 60) ^ 2 / (4 * 15.48919103 ^ 2) / 3.141593 ^ 2 := by
      norm_num
    linarith
  have hxhi : MU / (nvISS * nvISS) ≤ (6798.03 : ℝ) ^ (3 : ℕ) := by
    rw [hx]
    have h1 : (3.141592 : ℝ) ^ 2 ≤ Real.pi ^ 2 := by nlinarith
    have h2 : 398600.4418 * (24 * 60 * 60) ^ 2 / (4 * 15.48919103 ^ 2) / Real.pi ^ 2 ≤
        398600.4418 * (24 * 60 * 60) ^ 2 / (4 * 15.48919103 ^ 2) / 3.141592 ^ 2 :=
      div_le_div_of_nonneg_left hKpos.le (by positivity) h1
    have h3 : 398600.4418 * (24 * 60 * 60) ^ 2 / (4 * 15.48919103 ^ 2) / 3.141592 ^ 2 ≤
        (6798.03 : ℝ) ^ (3 : ℕ) := by
      norm_num
    linarith
  have hx0 : (0 : ℝ) ≤ MU / (nvISS * nvISS) := le_trans (by positivity) hxlo
  constructor
  · have hmono := Real.rpow_le_rpow (by positivity : (0 : ℝ) ≤ (6798.02 : ℝ) ^ (3 : ℕ))
      hxlo (by norm_num : (0 : ℝ) ≤ 1 / 3)
    have hcube : ((6798.02 : ℝ) ^ (3 : ℕ)) ^ ((1 : ℝ) / 3) = 6798.02 := by
      rw [← Real.rpow_natCast (6798.02 : ℝ) 3,
        ← Real.rpow_mul (by norm_num : (0 : ℝ) ≤ 6798.02)]
      norm_num
    rw [hcube] at hmono
    exact hmono
  · have hmono := Real.rpow_le_rpow hx0 hxhi (by norm_num : (0 : ℝ) ≤ 1 / 3)
    have hcube : ((6798.03 : ℝ) ^ (3 : ℕ)) ^ ((1 : ℝ) / 3) = 6798.03 := by
      rw [← Real.rpow_natCast (6798.03 : ℝ) 3,
        ← Real.rpow_mul (by norm_num : (0 : ℝ) ≤ 6798.03)]
      norm_num
    rw [hcube] at hmono
    exact hmono

/-- C6 counterexample.  On the bundled ISS fixture the apogee altitude
computed by `parseTLE` is strictly greater than 420 km (it is ≈ 420.62 km),
so the claimed interval `[400, 420]` is violated. -/
theorem c6_iss_apogee_exceeds_420 :
    ∃ apo : ℝ, okField (parseTLE issLine1 issLine2 "ISS (ZARYA)") (·.apogeeAltitude) =
      some apo ∧ 420 < apo := by
  refine ⟨_, by rw [iss_checks_pass]; exact iss_apogee_field, ?_⟩
  obtain ⟨hlo, _⟩ := iss_sma_bounds
  have he : ((0.0001078 : ℚ) : ℝ) = 0.0001078 := by norm_num
  rw [he, EARTH_RADIUS]
  nlinarith

/-- C6 amended.  On the ISS fixture, `parse` succeeds; the inclination is
exactly 51.6461°; the period is within 0.5% of 92.9 minutes; the perigee
altitude lies in `[400, 420]`; the apogee altitude lies in `[400, 421]`
(≈ 420.62 km, just above the claimed 420). -/
theorem c6_iss_fixture_values :
    exceptOk (parseTLE issLine1 issLine2 "ISS (ZARYA)") = true ∧
    okField (parseTLE issLine1 issLine2 "ISS (ZARYA)") (·.inclination) =
      some (51.6461 : ℚ) ∧
    (∃ p : ℝ, okField (parseTLE issLine1 issLine2 "ISS (ZARYA)") (·.period) = some p ∧
      |p - 92.9| ≤ 0.005 * 92.9) ∧
    (∃ pg : ℝ, okField (parseTLE issLine1 issLine2 "ISS (ZARYA)") (·.perigeeAltitude) =
      some pg ∧ 400 ≤ pg ∧ pg ≤ 420) ∧
    (∃ apo : ℝ, okField (parseTLE issLine1 issLine2 "ISS (ZARYA)") (·.apogeeAltitude) =
      some apo ∧ 400 ≤ apo ∧ apo ≤ 421) := by
  have hq : ((15.48919103 : ℚ) : ℝ) = 15.48919103 := by norm_num
  have he : ((0.0001078 : ℚ) : ℝ) = 0.0001078 := by norm_num
  obtain ⟨hlo, hhi⟩ := iss_sma_bounds
  refine ⟨by rw [iss_checks_pass]; rfl, by with_unfolding_all rfl, ?_, ?_, ?_⟩
  · refine ⟨_, by rw [iss_checks_pass]; exact iss_period_field, ?_⟩
    have hπ : Real.pi ≠ 0 := Real.pi_ne_zero
    have hper : 2 * Real.pi / nvISS / 60 = 1440 / 15.48919103 := by
      rw [nvISS, hq]
      field_simp
      ring
    rw [hper, abs_le]
    constructor <;> norm_num
  · refine ⟨_, by rw [iss_checks_pass]; exact iss_perigee_field, ?_, ?_⟩ <;>
      rw [he, EARTH_RADIUS] <;> nlinarith
  · refine ⟨_, by rw [iss_checks_pass]; exact iss_apogee_field, ?_, ?_⟩ <;>
      rw [he, EARTH_RADIUS] <;> nlinarith

/-- The central angle (0.1 degrees, in radians) of the C2 counterexample cap:
small enough that the 0.25-degree grid misses it entirely. -/
noncomputable def psiC2 : ℝ := 0.1 * Real.pi / 180

lemma mkRawSat_polar (c : CoverageData) :
    mkRawSat c ⟨0, 1, 0⟩ = ⟨0, 1, 0, Real.cos c.centralAngle, c.centralAngle⟩ := by
  rw [mkRawSat]
  have h1 : Real.sqrt ((0:ℝ) * 0 + 1 * 1 + 0 * 0) = 1 := by
    rw [show ((0:ℝ) * 0 + 1 * 1 + 0 * 0) = 1 by norm_num, Real.sqrt_one]
  simp only [h1]
  rw [if_neg (by norm_num : (1:ℝ) ≠ 0)]
  norm_num

lemma buildRawSats_one (d : Vec3) (ψ : ℝ) (h : 0 < ψ) :
    buildRawSats [⟨true, some ⟨some d, ψ⟩⟩] = [mkRawSat ⟨some d, ψ⟩ d] := by
  rw [buildRawSats]
  simp only [List.filterMap_cons, List.filterMap_nil]
  rw [if_neg (not_le.mpr h)]

lemma prune_singleton (r : RawSat) : prune [r] = [r] := by
  rw [prune, pruneGo]
  rw [if_neg]
  · rw [pruneGo]
  · simp [containedIn]

lemma minPsiDeg_singleton (r : RawSat) : minPsiDeg [r] = r.psi * 180 / Real.pi := by
  rw [minPsiDeg]
  rfl

lemma sin_89875_eq : Real.sin ((89.875 : ℝ) * Real.pi / 180) =
    Real.cos ((0.125 : ℝ) * Real.pi / 180) := by
  rw [← Real.cos_pi_div_two_sub]
  congr 1
  ring

lemma cos_gap_c2 :
    Real.cos ((0.125 : ℝ) * Real.pi / 180) + 1e-12 < Real.cos ((0.1 : ℝ) * Real.pi / 180) := by
  have hπlo : (3.141592 : ℝ) < Real.pi := Real.pi_gt_d6
  have hπhi : Real.pi < 3.141593 := Real.pi_lt_d6
  have key : Real.cos ((0.1 : ℝ) * Real.pi / 180) - Real.cos ((0.125 : ℝ) * Real.pi / 180) =
      2 * Real.sin ((0.1125 : ℝ) * Real.pi / 180) * Real.sin ((0.0125 : ℝ) * Real.pi / 180) := by
    rw [Real.cos_sub_cos]
    have h1 : ((0.1 : ℝ) * Real.pi / 180 + (0.125 : ℝ) * Real.pi / 180) / 2 =
        (0.1125 : ℝ) * Real.pi / 180 := by ring
    have h2 : ((0.1 : ℝ) * Real.pi / 180 - (0.125 : ℝ) * Real.pi / 180) / 2 =
        -((0.0125 : ℝ) * Real.pi / 180) := by ring
    rw [h1, h2, Real.sin_neg]
    ring
  have hb1 : (0.00196 : ℝ) ≤ (0.1125 : ℝ) * Real.pi / 180 := by linarith
  have hb2 : (0.1125 : ℝ) * Real.pi / 180 ≤ 0.00197 := by linarith
  have hb3 : (0.000218 : ℝ) ≤ (0.0125 : ℝ) * Real.pi / 180 := by linarith
  have hb4 : (0.0125 : ℝ) * Real.pi / 180 ≤ 0.000219 := by linarith
  have hsin1 := Real.sin_gt_sub_cube (by linarith : (0:ℝ) < (0.1125 : ℝ) * Real.pi / 180)
    (by linarith : (0.1125 : ℝ) * Real.pi / 180 ≤ 1)
  have hsin2 := Real.sin_gt_sub_cube (by linarith : (0:ℝ) < (0.0125 : ℝ) * Real.pi / 180)
    (by linarith : (0.0125 : ℝ) * Real.pi / 180 ≤ 1)
  have hcube1 : ((0.1125 : ℝ) * Real.pi / 180) ^ 3 ≤ (0.00197 : ℝ) ^ 3 :=
    pow_le_pow_left₀ (by linarith) hb2 3
  have hcube2 : ((0.0125 : ℝ) * Real.pi / 180) ^ 3 ≤ (0.000219 : ℝ) ^ 3 :=
    pow_le_pow_left₀ (by linarith) hb4 3
  have hs1 : (0.00195 : ℝ) ≤ Real.sin ((0.1125 : ℝ) * Real.pi / 180) := by linarith
  have hs2 : (0.000217 : ℝ) ≤ Real.sin ((0.0125 : ℝ) * Real.pi / 180) := by linarith
  have hprod : (0.00195 : ℝ) * 0.000217 ≤
      Real.sin ((0.1125 : ℝ) * Real.pi / 180) * Real.sin ((0.0125 : ℝ) * Real.pi / 180) :=
    mul_le_mul hs1 hs2 (by norm_num) (by linarith)
  linarith

lemma c2_band_bound {i : ℕ} (hi : i < 720) :
    Real.sin ((((-90 + (i : ℝ) * ((1/4 : ℚ) : ℝ)) +
        ((-90 + (i : ℝ) * ((1/4 : ℚ) : ℝ)) + ((1/4 : ℚ) : ℝ))) / 2) * Real.pi / 180) ≤
      Real.cos ((0.125 : ℝ) * Real.pi / 180) := by
  have hq : ((1/4 : ℚ) : ℝ) = 1/4 := by norm_num
  rw [hq, ← sin_89875_eq]
  apply sin_deg_mono
  · have : (0 : ℝ) ≤ (i : ℝ) := Nat.cast_nonneg i
    nlinarith
  · have : (i : ℝ) ≤ 719 := by exact_mod_cast Nat.le_of_lt_succ hi
    nlinarith
  · norm_num

/-- C2 counterexample.  A single active cap with central angle 0.1° at the
grid's polar axis: the 0.25° quadrature grid contains no sample point within
the cap, so the union estimate is 0, strictly below the cap's own exact
coverage percentage — the claimed lower bound (union ≥ max single-cap
percent) fails. -/
theorem c2_union_percent_below_max_single_cap :
    (recomputeGlobalCoverage [⟨true, some ⟨some ⟨0, 1, 0⟩, psiC2⟩⟩]).1 <
      singleCapPercent psiC2 := by
  have hπ : (0 : ℝ) < Real.pi := Real.pi_pos
  have hψ0 : 0 < psiC2 := by rw [psiC2]; positivity
  have hbuild := buildRawSats_one ⟨0, 1, 0⟩ psiC2 hψ0
  have hmk := mkRawSat_polar ⟨some ⟨0, 1, 0⟩, psiC2⟩
  rw [hmk] at hbuild
  have hLHS : (recomputeGlobalCoverage [⟨true, some ⟨some ⟨0, 1, 0⟩, psiC2⟩⟩]).1 = 0 := by
    simp only [recomputeGlobalCoverage]
    rw [show List.filter (fun s => s.showCoverage)
        [(⟨true, some ⟨some ⟨0, 1, 0⟩, psiC2⟩⟩ : SatEntry)] =
        [⟨true, some ⟨some ⟨0, 1, 0⟩, psiC2⟩⟩] from rfl]
    rw [hbuild, prune_singleton, minPsiDeg_singleton]
    have hmin : (RawSat.mk 0 1 0 (Real.cos psiC2) psiC2).psi * 180 / Real.pi = 0.1 := by
      show psiC2 * 180 / Real.pi = 0.1
      rw [psiC2]
      field_simp
    rw [hmin]
    have hstep : chooseStep ([(RawSat.mk 0 1 0 (Real.cos psiC2) psiC2)].length) (0.1 : ℝ) = 1/4 := by
      rw [chooseStep, if_pos (Or.inr (by norm_num))]
    rw [hstep]
    have hfrac : coveredFrac [RawSat.mk 0 1 0 (Real.cos psiC2) psiC2] (1/4) (1/4) = 0 := by
      rw [coveredFrac]
      apply Finset.sum_eq_zero
      intro i hi
      apply Finset.sum_eq_zero
      intro j hj
      rw [if_neg]
      rw [latStepsOf_quarter] at hi
      simp only [coveredAt, List.mem_singleton, gridPoint]
      rintro ⟨s, hs, hcond⟩
      subst hs
      simp only [mul_zero, mul_one, zero_add, add_zero] at hcond
      have hband := c2_band_bound (Finset.mem_range.1 hi)
      have hgap := cos_gap_c2
      have hψeq : Real.cos psiC2 = Real.cos ((0.1 : ℝ) * Real.pi / 180) := by rw [psiC2]
      rw [hψeq] at hcond
      linarith
    rw [hfrac]
    simp
  rw [hLHS]
  have hcap : singleCapPercent psiC2 = 50 * (1 - Real.cos psiC2) := by
    rw [singleCapPercent, REAL_EARTH_RADIUS_KM]
    have hR : (6378.137 : ℝ) ≠ 0 := by norm_num
    field_simp
    ring
  rw [hcap]
  have hcos1 : Real.cos psiC2 < 1 := by
    have h0 : (0 : ℝ) ∈ Set.Icc (0 : ℝ) Real.pi := ⟨le_rfl, hπ.le⟩
    have hψmem : psiC2 ∈ Set.Icc (0 : ℝ) Real.pi := by
      constructor
      · exact hψ0.le
      · rw [psiC2]; nlinarith
    have := Real.strictAntiOn_cos h0 hψmem hψ0
    rwa [Real.cos_zero] at this
  linarith

lemma coveredAt_nil (p : Vec3) : ¬ coveredAt [] p := by
  simp [coveredAt]

lemma coveredAt_cons (t : RawSat) (rest : List RawSat) (p : Vec3) :
    coveredAt (t :: rest) p ↔ coveredAt [t] p ∨ coveredAt rest p := by
  simp [coveredAt]

lemma coveredFrac_nil (latStepDeg lonStepDeg : ℚ) : coveredFrac [] latStepDeg lonStepDeg = 0 := by
  rw [coveredFrac]
  apply Finset.sum_eq_zero
  intro i _
  apply Finset.sum_eq_zero
  intro j _
  rw [if_neg (coveredAt_nil _)]

/-- C2 amended.  The claimed bounds hold at the quadrature level: at any fixed
grid resolution with in-range bands, the grid-estimated union covered
fraction is at least the grid estimate of each individual cap and at most the
sum of the individual grid estimates.  (Against the exact closed-form
single-cap percentages the bounds fail, by the counterexample: the grid
estimate of a cap small relative to the grid step can be 0.) -/
theorem c2_fixed_grid_union_bounds (sats : List RawSat) (latStepDeg lonStepDeg : ℚ)
    (hlat : 0 ≤ (latStepDeg : ℝ)) (hlon : 0 ≤ (lonStepDeg : ℝ))
    (hband : ∀ i ∈ Finset.range (latStepsOf latStepDeg),
      -90 + ((i : ℝ) + 1) * (latStepDeg : ℝ) ≤ 90) :
    (∀ s ∈ sats, coveredFrac [s] latStepDeg lonStepDeg ≤
      coveredFrac sats latStepDeg lonStepDeg) ∧
    coveredFrac sats latStepDeg lonStepDeg ≤
      (sats.map fun s => coveredFrac [s] latStepDeg lonStepDeg).sum := by
  constructor
  · intro s hs
    rw [coveredFrac, coveredFrac]
    refine Finset.sum_le_sum fun i hi => Finset.sum_le_sum fun j _ => ?_
    have hw : 0 ≤ bandAreaFracPerLon latStepDeg lonStepDeg i :=
      bandAreaFracPerLon_nonneg i hlat hlon (hband i hi)
    by_cases h : coveredAt [s] (gridPoint latStepDeg lonStepDeg i j)
    · have h2 : coveredAt sats (gridPoint latStepDeg lonStepDeg i j) := by
        obtain ⟨t, ht, hcond⟩ := h
        rw [List.mem_singleton] at ht
        subst ht
        exact ⟨t, hs, hcond⟩
      rw [if_pos h, if_pos h2]
    · rw [if_neg h]
      by_cases h2 : coveredAt sats (gridPoint latStepDeg lonStepDeg i j)
      · rw [if_pos h2]; exact hw
      · rw [if_neg h2]
  · induction sats with
    | nil => rw [coveredFrac_nil]; simp
    | cons t rest ih =>
      have hsub : coveredFrac (t :: rest) latStepDeg lonStepDeg ≤
          coveredFrac [t] latStepDeg lonStepDeg + coveredFrac rest latStepDeg lonStepDeg := by
        rw [coveredFrac, coveredFrac, coveredFrac, ← Finset.sum_add_distrib]
        refine Finset.sum_le_sum fun i hi => ?_
        rw [← Finset.sum_add_distrib]
        refine Finset.sum_le_sum fun j _ => ?_
        have hw : 0 ≤ bandAreaFracPerLon latStepDeg lonStepDeg i :=
          bandAreaFracPerLon_nonneg i hlat hlon (hband i hi)
        by_cases h : coveredAt (t :: rest) (gridPoint latStepDeg lonStepDeg i j)
        · rw [if_pos h]
          rcases (coveredAt_cons t rest _).1 h with h1 | h1
          · rw [if_pos h1]
            by_cases h2 : coveredAt rest (gridPoint latStepDeg lonStepDeg i j)
            · rw [if_pos h2]; linarith
            · rw [if_neg h2]; linarith
          · rw [if_pos h1]
            by_cases h2 : coveredAt [t] (gridPoint latStepDeg lonStepDeg i j)
            · rw [if_pos h2]; linarith
            · rw [if_neg h2]; linarith
        · rw [if_neg h]
          by_cases h1 : coveredAt [t] (gridPoint latStepDeg lonStepDeg i j)
          · rw [if_pos h1]
            by_cases h2 : coveredAt rest (gridPoint latStepDeg lonStepDeg i j)
            · rw [if_pos h2]; linarith
            · rw [if_neg h2]; linarith
          · rw [if_neg h1]
            by_cases h2 : coveredAt rest (gridPoint latStepDeg lonStepDeg i j)
            · rw [if_pos h2]; linarith
            · rw [if_neg h2]; linarith
      calc coveredFrac (t :: rest) latStepDeg lonStepDeg ≤
          coveredFrac [t] latStepDeg lonStepDeg + coveredFrac rest latStepDeg lonStepDeg := hsub
        _ ≤ coveredFrac [t] latStepDeg lonStepDeg +
            (rest.map fun s => coveredFrac [s] latStepDeg lonStepDeg).sum := by linarith [ih]
        _ = ((t :: rest).map fun s => coveredFrac [s] latStepDeg lonStepDeg).sum := by
            rw [List.map_cons, List.sum_cons]

/-- Witness for the amended C2 at a one-cap list and the 1-degree grid. -/
theorem c2_fixed_grid_union_bounds_witness :
    (∀ s ∈ [(⟨0, 1, 0, 1, 1⟩ : RawSat)], coveredFrac [s] 1 1 ≤
      coveredFrac [(⟨0, 1, 0, 1, 1⟩ : RawSat)] 1 1) ∧
    coveredFrac [(⟨0, 1, 0, 1, 1⟩ : RawSat)] 1 1 ≤
      ([(⟨0, 1, 0, 1, 1⟩ : RawSat)].map fun s => coveredFrac [s] 1 1).sum := by
  refine c2_fixed_grid_union_bounds _ 1 1 (by norm_num) (by norm_num) ?_
  intro i hi
  rw [latStepsOf_one] at hi
  have h179 : (i : ℝ) ≤ 179 := by exact_mod_cast Nat.le_of_lt_succ (Finset.mem_range.1 hi)
  have hq : ((1 : ℚ) : ℝ) = 1 := by norm_num
  rw [hq]
  linarith

/-- The central angle (60 degrees) of the two identical caps of the C1
counterexample. -/
noncomputable def psiC1 : ℝ := Real.pi / 3

lemma sepOf_self_polar :
    sepOf ⟨0, 1, 0, Real.cos psiC1, psiC1⟩ ⟨0, 1, 0, Real.cos psiC1, psiC1⟩ = 0 := by
  rw [sepOf]
  norm_num [Real.arccos_one]

lemma prune_pair_c1 :
    prune [(⟨0, 1, 0, Real.cos psiC1, psiC1⟩ : RawSat),
           (⟨0, 1, 0, Real.cos psiC1, psiC1⟩ : RawSat)] = [] := by
  have hcont : containedIn (⟨0, 1, 0, Real.cos psiC1, psiC1⟩ : RawSat)
      [(⟨0, 1, 0, Real.cos psiC1, psiC1⟩ : RawSat)] := by
    refine ⟨_, List.mem_singleton_self _, ?_⟩
    rw [show (RawSat.mk 0 1 0 (Real.cos psiC1) psiC1).psi +
      sepOf ⟨0, 1, 0, Real.cos psiC1, psiC1⟩ ⟨0, 1, 0, Real.cos psiC1, psiC1⟩ - 1e-12 =
      psiC1 + 0 - 1e-12 from by rw [sepOf_self_polar]]
    show psiC1 + 0 - 1e-12 ≤ psiC1
    norm_num
  rw [prune, pruneGo, if_pos (by simpa using hcont), pruneGo, if_pos (by simpa using hcont),
    pruneGo]

lemma buildRawSats_pair_c1 :
    buildRawSats [⟨true, some ⟨some ⟨0, 1, 0⟩, psiC1⟩⟩, ⟨true, some ⟨some ⟨0, 1, 0⟩, psiC1⟩⟩] =
      [(⟨0, 1, 0, Real.cos psiC1, psiC1⟩ : RawSat),
       (⟨0, 1, 0, Real.cos psiC1, psiC1⟩ : RawSat)] := by
  have hψ : ¬ ((⟨some ⟨0, 1, 0⟩, psiC1⟩ : CoverageData).centralAngle ≤ 0) := by
    rw [not_le]
    show (0 : ℝ) < psiC1
    rw [psiC1]
    positivity
  rw [buildRawSats]
  simp only [List.filterMap_cons, List.filterMap_nil, if_neg hψ]
  rw [mkRawSat_polar]

/-- C1 counterexample.  Two identical caps (same axis, same ψ = 60°) dominate
each other under the `ψⱼ ≥ ψᵢ + sep − 1e-12` rule, so the pruning loop
discards both and the union result collapses to `(0, 0)`, while the same
computation without the pruning step reports strictly positive coverage:
domination pruning does not preserve the union result. -/
theorem c1_pruning_changes_union_result :
    recomputeGlobalCoverage
        [⟨true, some ⟨some ⟨0, 1, 0⟩, psiC1⟩⟩, ⟨true, some ⟨some ⟨0, 1, 0⟩, psiC1⟩⟩] = (0, 0) ∧
    0 < (recomputeGlobalCoverageUnpruned
        [⟨true, some ⟨some ⟨0, 1, 0⟩, psiC1⟩⟩, ⟨true, some ⟨some ⟨0, 1, 0⟩, psiC1⟩⟩]).1 := by
  classical
  have hπ : (0 : ℝ) < Real.pi := Real.pi_pos
  constructor
  · simp only [recomputeGlobalCoverage]
    rw [show List.filter (fun s => s.showCoverage)
        [(⟨true, some ⟨some ⟨0, 1, 0⟩, psiC1⟩⟩ : SatEntry),
         ⟨true, some ⟨some ⟨0, 1, 0⟩, psiC1⟩⟩] =
        [⟨true, some ⟨some ⟨0, 1, 0⟩, psiC1⟩⟩, ⟨true, some ⟨some ⟨0, 1, 0⟩, psiC1⟩⟩] from rfl]
    rw [buildRawSats_pair_c1, prune_pair_c1]
    simp
  · simp only [recomputeGlobalCoverageUnpruned]
    rw [show List.filter (fun s => s.showCoverage)
        [(⟨true, some ⟨some ⟨0, 1, 0⟩, psiC1⟩⟩ : SatEntry),
         ⟨true, some ⟨some ⟨0, 1, 0⟩, psiC1⟩⟩] =
        [⟨true, some ⟨some ⟨0, 1, 0⟩, psiC1⟩⟩, ⟨true, some ⟨some ⟨0, 1, 0⟩, psiC1⟩⟩] from rfl]
    rw [buildRawSats_pair_c1]
    have hmin : minPsiDeg [(⟨0, 1, 0, Real.cos psiC1, psiC1⟩ : RawSat),
        (⟨0, 1, 0, Real.cos psiC1, psiC1⟩ : RawSat)] = 60 := by
      rw [minPsiDeg]
      have h60 : (RawSat.mk 0 1 0 (Real.cos psiC1) psiC1).psi * 180 / Real.pi = 60 := by
        show psiC1 * 180 / Real.pi = 60
        rw [psiC1]
        field_simp
        ring
      simp only [List.foldl_cons, List.foldl_nil, h60, min_self]
    rw [hmin]
    have hstep : chooseStep ([(⟨0, 1, 0, Real.cos psiC1, psiC1⟩ : RawSat),
        (⟨0, 1, 0, Real.cos psiC1, psiC1⟩ : RawSat)].length) (60 : ℝ) = 1 := by
      rw [chooseStep, if_neg (by push_neg; constructor <;> norm_num),
        if_neg (by push_neg; constructor <;> norm_num)]
    rw [hstep]
    simp only [List.isEmpty_cons, Bool.false_eq_true, if_false]
    have hband := range_band_bound latStepsOf_one (by norm_num) (by norm_num)
    have hterm : 0 < bandAreaFracPerLon 1 1 179 := by
      simp only [bandAreaFracPerLon]
      have hq : ((1 : ℚ) : ℝ) = 1 := by norm_num
      rw [hq]
      apply div_pos
      · apply mul_pos (by positivity)
        have := sin_deg_strict_mono (a := -90 + (179 : ℝ) * 1) (b := -90 + (179 : ℝ) * 1 + 1)
          (by norm_num) (by norm_num) (by norm_num)
        linarith
      · positivity
    have hcov : coveredAt [(⟨0, 1, 0, Real.cos psiC1, psiC1⟩ : RawSat),
        (⟨0, 1, 0, Real.cos psiC1, psiC1⟩ : RawSat)] (gridPoint 1 1 179 0) := by
      refine ⟨_, List.mem_cons_self _ _, ?_⟩
      simp only [gridPoint]
      show Real.cos psiC1 ≤ _ * (0:ℝ) + Real.sin _ * 1 + _ * (0:ℝ) + 1e-12
      have hq : ((1 : ℚ) : ℝ) = 1 := by norm_num
      rw [hq]
      have hsin : Real.sin ((30 : ℝ) * Real.pi / 180) ≤
          Real.sin ((((-90 + (179 : ℝ) * 1) + ((-90 + (179 : ℝ) * 1) + 1)) / 2) * Real.pi / 180) := by
        apply sin_deg_mono (by norm_num) (by norm_num) (by norm_num)
      have h30 : Real.sin ((30 : ℝ) * Real.pi / 180) = 1 / 2 := by
        rw [show (30 : ℝ) * Real.pi / 180 = Real.pi / 6 from by ring, Real.sin_pi_div_six]
      have hcos : Real.cos psiC1 = 1 / 2 := by
        rw [psiC1, Real.cos_pi_div_three]
      rw [hcos]
      rw [h30] at hsin
      linarith
    have hfracpos : 0 < coveredFrac [(⟨0, 1, 0, Real.cos psiC1, psiC1⟩ : RawSat),
        (⟨0, 1, 0, Real.cos psiC1, psiC1⟩ : RawSat)] 1 1 := by
      rw [coveredFrac]
      have hterm_nonneg : ∀ i ∈ Finset.range (latStepsOf 1),
          (0 : ℝ) ≤ ∑ j ∈ Finset.range (lonStepsOf 1),
            if coveredAt [(⟨0, 1, 0, Real.cos psiC1, psiC1⟩ : RawSat),
                (⟨0, 1, 0, Real.cos psiC1, psiC1⟩ : RawSat)] (gridPoint 1 1 i j) then
              bandAreaFracPerLon 1 1 i else 0 := by
        intro i hi
        refine Finset.sum_nonneg fun j _ => ?_
        by_cases hc : coveredAt [(⟨0, 1, 0, Real.cos psiC1, psiC1⟩ : RawSat),
            (⟨0, 1, 0, Real.cos psiC1, psiC1⟩ : RawSat)] (gridPoint 1 1 i j)
        · rw [if_pos hc]
          exact bandAreaFracPerLon_nonneg i (by norm_num) (by norm_num) (hband i hi)
        · rw [if_neg hc]
      have h179mem : (179 : ℕ) ∈ Finset.range (latStepsOf 1) := by
        rw [latStepsOf_one]
        exact Finset.mem_range.2 (by norm_num)
      refine lt_of_lt_of_le ?_ (Finset.single_le_sum hterm_nonneg h179mem)
      have h0mem : (0 : ℕ) ∈ Finset.range (lonStepsOf 1) := by
        rw [lonStepsOf_one]
        exact Finset.mem_range.2 (by norm_num)
      have hinner_nonneg : ∀ j ∈ Finset.range (lonStepsOf 1),
          (0 : ℝ) ≤ if coveredAt [(⟨0, 1, 0, Real.cos psiC1, psiC1⟩ : RawSat),
              (⟨0, 1, 0, Real.cos psiC1, psiC1⟩ : RawSat)] (gridPoint 1 1 179 j) then
            bandAreaFracPerLon 1 1 179 else 0 := by
        intro j _
        by_cases hc : coveredAt [(⟨0, 1, 0, Real.cos psiC1, psiC1⟩ : RawSat),
            (⟨0, 1, 0, Real.cos psiC1, psiC1⟩ : RawSat)] (gridPoint 1 1 179 j)
        · rw [if_pos hc]; exact hterm.le
        · rw [if_neg hc]
      refine lt_of_lt_of_le ?_ (Finset.single_le_sum hinner_nonneg h0mem)
      rw [if_pos hcov]
      exact hterm
    positivity

lemma isEmpty_false_of_mem {α : Type} {x : α} {l : List α} (h : x ∈ l) :
    l.isEmpty = false := by
  cases l with
  | nil => cases h
  | cons a t => rfl

lemma containedIn_mono {a : RawSat} {l1 l2 : List RawSat} (h : ∀ x, x ∈ l1 → x ∈ l2) :
    containedIn a l1 → containedIn a l2 := by
  rintro ⟨aj, hm, hle⟩
  exact ⟨aj, h aj hm, hle⟩

lemma contained_transfer {aA aB c : RawSat}
    (hux : aA.ux = aB.ux) (huy : aA.uy = aB.uy) (huz : aA.uz = aB.uz)
    (hlt : aA.psi + 1e-12 < aB.psi)
    (hle : c.psi + sepOf c aA - 1e-12 ≤ aA.psi) :
    c.psi + sepOf c aB - 1e-12 ≤ aB.psi ∧ c ≠ aB := by
  have hsep : sepOf c aA = sepOf c aB := by rw [sepOf, sepOf, hux, huy, huz]
  constructor
  · rw [← hsep]; linarith
  · intro hceq
    rw [hceq] at hle
    have h0 : 0 ≤ sepOf aB aA := Real.arccos_nonneg _
    linarith

lemma pruneGo_congr (l : List RawSat) : ∀ {b1 b2 : List RawSat},
    (∀ x, x ∈ b1 ↔ x ∈ b2) → pruneGo b1 l = pruneGo b2 l := by
  induction l with
  | nil => intro b1 b2 _; rfl
  | cons a rest ih =>
    intro b1 b2 h
    rw [pruneGo, pruneGo]
    have hiff : containedIn a (b1 ++ rest) ↔ containedIn a (b2 ++ rest) := by
      constructor
      · refine containedIn_mono fun x hx => ?_
        rw [List.mem_append] at hx ⊢
        exact hx.imp (h x).1 id
      · refine containedIn_mono fun x hx => ?_
        rw [List.mem_append] at hx ⊢
        exact hx.imp (h x).2 id
    have hnext : ∀ x, x ∈ b1 ++ [a] ↔ x ∈ b2 ++ [a] := by
      intro x
      simp only [List.mem_append]
      rw [h x]
    by_cases hc : containedIn a (b1 ++ rest)
    · rw [if_pos hc, if_pos (hiff.1 hc), ih hnext]
    · rw [if_neg hc, if_neg (fun hx => hc (hiff.2 hx)), ih hnext]

lemma pruneGo_before_dominated {aA aB : RawSat}
    (hux : aA.ux = aB.ux) (huy : aA.uy = aB.uy) (huz : aA.uz = aB.uz)
    (hlt : aA.psi + 1e-12 < aB.psi) :
    ∀ (rest before : List RawSat), aB ∈ before ++ rest →
      pruneGo (before ++ [aA]) rest = pruneGo before rest := by
  intro rest
  induction rest with
  | nil => intro before _; rfl
  | cons c rest2 ih =>
    intro before hmem
    rw [pruneGo, pruneGo]
    have hiff : containedIn c ((before ++ [aA]) ++ rest2) ↔ containedIn c (before ++ rest2) := by
      constructor
      · rintro ⟨aj, hm, hle⟩
        simp only [List.mem_append, List.mem_singleton] at hm
        rcases hm with (hm | rfl) | hm
        · exact ⟨aj, List.mem_append.2 (Or.inl hm), hle⟩
        · obtain ⟨h1, hne⟩ := contained_transfer hux huy huz hlt hle
          have hne2 : aB ≠ c := fun hh => hne hh.symm
          have hBmem2 : aB ∈ before ++ rest2 := by
            simp only [List.mem_append, List.mem_cons] at hmem ⊢
            tauto
          exact ⟨aB, hBmem2, h1⟩
        · exact ⟨aj, List.mem_append.2 (Or.inr hm), hle⟩
      · refine containedIn_mono fun x hx => ?_
        simp only [List.mem_append, List.mem_singleton] at hx ⊢
        tauto
    have hmem2 : aB ∈ (before ++ [c]) ++ rest2 := by
      simp only [List.mem_append, List.mem_singleton] at hmem ⊢
      rcases hmem with hb | hcr
      · tauto
      · rcases List.mem_cons.1 hcr with heq | h2 <;> tauto
    have hswap : ∀ x, x ∈ (before ++ [aA]) ++ [c] ↔ x ∈ (before ++ [c]) ++ [aA] := by
      intro x
      simp only [List.mem_append, List.mem_singleton]
      tauto
    by_cases hc : containedIn c (before ++ rest2)
    · rw [if_pos (hiff.2 hc), if_pos hc, pruneGo_congr rest2 hswap, ih (before ++ [c]) hmem2]
    · rw [if_neg (fun hx => hc (hiff.1 hx)), if_neg hc, pruneGo_congr rest2 hswap,
        ih (before ++ [c]) hmem2]

lemma pruneGo_erase_dominated {aA aB : RawSat}
    (hux : aA.ux = aB.ux) (huy : aA.uy = aB.uy) (huz : aA.uz = aB.uz)
    (hsep0 : sepOf aA aB = 0) (hlt : aA.psi + 1e-12 < aB.psi) :
    ∀ (mid before rest : List RawSat), aB ∈ before ++ mid ++ rest →
      pruneGo before (mid ++ aA :: rest) = pruneGo before (mid ++ rest) := by
  intro mid
  induction mid with
  | nil =>
    intro before rest hmem
    have hmem0 : aB ∈ before ++ rest := by
      simp only [List.mem_append, List.nil_append] at hmem ⊢
      tauto
    simp only [List.nil_append]
    rw [pruneGo]
    have hcont : containedIn aA (before ++ rest) := ⟨aB, hmem0, by rw [hsep0]; linarith⟩
    rw [if_pos hcont]
    exact pruneGo_before_dominated hux huy huz hlt rest before hmem0
  | cons c mid2 ih =>
    intro before rest hmem
    show pruneGo before (c :: (mid2 ++ aA :: rest)) = pruneGo before (c :: (mid2 ++ rest))
    rw [pruneGo, pruneGo]
    have hiff : containedIn c (before ++ (mid2 ++ aA :: rest)) ↔
        containedIn c (before ++ (mid2 ++ rest)) := by
      constructor
      · rintro ⟨aj, hm, hle⟩
        simp only [List.mem_append, List.mem_cons] at hm
        rcases hm with hm | hm | rfl | hm
        · exact ⟨aj, by simp only [List.mem_append]; tauto, hle⟩
        · exact ⟨aj, by simp only [List.mem_append]; tauto, hle⟩
        · obtain ⟨h1, hne⟩ := contained_transfer hux huy huz hlt hle
          have hne2 : aB ≠ c := fun hh => hne hh.symm
          have hBmem2 : aB ∈ before ++ (mid2 ++ rest) := by
            simp only [List.mem_append, List.mem_cons] at hmem ⊢
            tauto
          exact ⟨aB, hBmem2, h1⟩
        · exact ⟨aj, by simp only [List.mem_append]; tauto, hle⟩
      · refine containedIn_mono fun x hx => ?_
        simp only [List.mem_append, List.mem_cons] at hx ⊢
        tauto
    have hmem2 : aB ∈ (before ++ [c]) ++ mid2 ++ rest := by
      simp only [List.mem_append, List.mem_cons, List.mem_singleton] at hmem ⊢
      tauto
    by_cases hc : containedIn c (before ++ (mid2 ++ rest))
    · rw [if_pos (hiff.2 hc), if_pos hc]
      exact ih (before ++ [c]) rest hmem2
    · rw [if_neg (fun hx => hc (hiff.1 hx)), if_neg hc]
      exact congrArg (c :: ·) (ih (before ++ [c]) rest hmem2)

lemma prune_erase_dominated {aA aB : RawSat}
    (hux : aA.ux = aB.ux) (huy : aA.uy = aB.uy) (huz : aA.uz = aB.uz)
    (hsep0 : sepOf aA aB = 0) (hlt : aA.psi + 1e-12 < aB.psi)
    (l1 l2 : List RawSat) (hmem : aB ∈ l1 ++ l2) :
    prune (l1 ++ aA :: l2) = prune (l1 ++ l2) := by
  rw [prune, prune]
  exact pruneGo_erase_dominated hux huy huz hsep0 hlt l1 [] l2 (by simpa using hmem)

/-- The tail of `recomputeGlobalCoverage` past the pruning step, as a
function of the surviving cap list (proof helper). -/
noncomputable def unionFromPruned (sats : List RawSat) : ℝ × ℝ :=
  if sats.isEmpty then (0, 0) else
  let step := chooseStep sats.length (minPsiDeg sats)
  let percent := coveredFrac sats step step * 100
  (percent, percent / 100 * totalEarthAreaKm2)

lemma recompute_eq_unionFromPruned (l : List SatEntry)
    (hA : (l.filter (·.showCoverage)).isEmpty = false)
    (hR : (buildRawSats (l.filter (·.showCoverage))).isEmpty = false) :
    recomputeGlobalCoverage l =
      unionFromPruned (prune (buildRawSats (l.filter (·.showCoverage)))) := by
  simp only [recomputeGlobalCoverage, unionFromPruned, hA, hR, Bool.false_eq_true, if_false]

/-- C1 amended.  Domination pruning is result-preserving for strict
dominations: if one active cap A has the same (nonzero) axis vector as
another active cap B and `ψ_A + 1e-12 < ψ_B`, then A is discarded by the
pruning loop and the union result is identical whether or not A was in the
satellite list.  (Without the strict `1e-12` gap this fails: two mutually
dominating caps discard each other, see the counterexample.) -/
theorem c1_strict_same_axis_domination_preserves_union
    (pre post : List SatEntry) (d : Vec3) (ψA ψB : ℝ) (sB : SatEntry)
    (hd : Real.sqrt (d.x * d.x + d.y * d.y + d.z * d.z) ≠ 0)
    (hψA : 0 < ψA)
    (hBmem : sB ∈ pre ++ post)
    (hBshow : sB.showCoverage = true)
    (hBcov : sB.cov = some ⟨some d, ψB⟩)
    (hlt : ψA + 1e-12 < ψB) :
    recomputeGlobalCoverage (pre ++ (⟨true, some ⟨some d, ψA⟩⟩ : SatEntry) :: post) =
      recomputeGlobalCoverage (pre ++ post) := by
  classical
  have hψB : 0 < ψB := by linarith
  have hfilter1 : (pre ++ (⟨true, some ⟨some d, ψA⟩⟩ : SatEntry) :: post).filter
      (·.showCoverage) =
      pre.filter (·.showCoverage) ++ (⟨true, some ⟨some d, ψA⟩⟩ : SatEntry) ::
        post.filter (·.showCoverage) := by
    rw [List.filter_append, List.filter_cons]
    rfl
  have hfilter2 : (pre ++ post).filter (·.showCoverage) =
      pre.filter (·.showCoverage) ++ post.filter (·.showCoverage) := List.filter_append _ _
  have hbuild1 : buildRawSats (pre.filter (·.showCoverage) ++
      (⟨true, some ⟨some d, ψA⟩⟩ : SatEntry) :: post.filter (·.showCoverage)) =
      buildRawSats (pre.filter (·.showCoverage)) ++ mkRawSat ⟨some d, ψA⟩ d ::
        buildRawSats (post.filter (·.showCoverage)) := by
    simp only [buildRawSats, List.filterMap_append, List.filterMap_cons]
    rw [if_neg (not_le.mpr hψA)]
  have hbuild2 : buildRawSats (pre.filter (·.showCoverage) ++ post.filter (·.showCoverage)) =
      buildRawSats (pre.filter (·.showCoverage)) ++
        buildRawSats (post.filter (·.showCoverage)) := by
    simp only [buildRawSats, List.filterMap_append]
  have haBmem : mkRawSat ⟨some d, ψB⟩ d ∈
      buildRawSats (pre.filter (·.showCoverage)) ++
        buildRawSats (post.filter (·.showCoverage)) := by
    rw [← hbuild2, ← hfilter2, buildRawSats]
    refine List.mem_filterMap.2 ⟨sB, List.mem_filter.2 ⟨hBmem, by rw [hBshow]⟩, ?_⟩
    rw [hBcov]
    show (if ψB ≤ 0 then none else some (mkRawSat ⟨some d, ψB⟩ d)) = _
    rw [if_neg (not_le.mpr hψB)]
  have hS0 : (0 : ℝ) ≤ d.x * d.x + d.y * d.y + d.z * d.z := by
    nlinarith [mul_self_nonneg d.x, mul_self_nonneg d.y, mul_self_nonneg d.z]
  have hSpos : (0 : ℝ) < d.x * d.x + d.y * d.y + d.z * d.z := by
    rcases lt_or_eq_of_le hS0 with h | h
    · exact h
    · exact absurd (by rw [← h, Real.sqrt_zero]) hd
  have hsep0 : sepOf (mkRawSat ⟨some d, ψA⟩ d) (mkRawSat ⟨some d, ψB⟩ d) = 0 := by
    rw [sepOf]
    have hdot : (mkRawSat ⟨some d, ψA⟩ d).ux * (mkRawSat ⟨some d, ψB⟩ d).ux +
        (mkRawSat ⟨some d, ψA⟩ d).uy * (mkRawSat ⟨some d, ψB⟩ d).uy +
        (mkRawSat ⟨some d, ψA⟩ d).uz * (mkRawSat ⟨some d, ψB⟩ d).uz = 1 := by
      show d.x / _ * (d.x / _) + d.y / _ * (d.y / _) + d.z / _ * (d.z / _) = 1
      rw [if_neg hd]
      simp only [div_mul_div_comm, div_add_div_same]
      rw [Real.mul_self_sqrt hS0]
      exact div_self (ne_of_gt hSpos)
    rw [hdot]
    norm_num [Real.arccos_one]
  have hux : (mkRawSat ⟨some d, ψA⟩ d).ux = (mkRawSat ⟨some d, ψB⟩ d).ux := rfl
  have huy : (mkRawSat ⟨some d, ψA⟩ d).uy = (mkRawSat ⟨some d, ψB⟩ d).uy := rfl
  have huz : (mkRawSat ⟨some d, ψA⟩ d).uz = (mkRawSat ⟨some d, ψB⟩ d).uz := rfl
  have hprune := prune_erase_dominated hux huy huz hsep0 hlt
    (buildRawSats (pre.filter (·.showCoverage)))
    (buildRawSats (post.filter (·.showCoverage))) haBmem
  have hA1 : ((pre ++ (⟨true, some ⟨some d, ψA⟩⟩ : SatEntry) :: post).filter
      (·.showCoverage)).isEmpty = false := by
    rw [hfilter1]
    exact isEmpty_false_of_mem (List.mem_append.2 (Or.inr (List.mem_cons_self _ _)))
  have hR1 : (buildRawSats ((pre ++ (⟨true, some ⟨some d, ψA⟩⟩ : SatEntry) :: post).filter
      (·.showCoverage))).isEmpty = false := by
    rw [hfilter1, hbuild1]
    exact isEmpty_false_of_mem (List.mem_append.2 (Or.inr (List.mem_cons_self _ _)))
  have hA2 : ((pre ++ post).filter (·.showCoverage)).isEmpty = false :=
    isEmpty_false_of_mem (List.mem_filter.2 ⟨hBmem, by rw [hBshow]⟩)
  have hR2 : (buildRawSats ((pre ++ post).filter (·.showCoverage))).isEmpty = false := by
    rw [hfilter2, hbuild2]
    exact isEmpty_false_of_mem haBmem
  rw [recompute_eq_unionFromPruned _ hA1 hR1, recompute_eq_unionFromPruned _ hA2 hR2]
  rw [hfilter1, hbuild1, hfilter2, hbuild2, hprune]

/-- Witness for the amended C1: a strictly dominated cap (ψ = 1/2) inserted
before its same-axis dominator (ψ = 1) leaves the union result unchanged. -/
theorem c1_strict_same_axis_domination_preserves_union_witness :
    recomputeGlobalCoverage
        [⟨true, some ⟨some ⟨0, 1, 0⟩, 1/2⟩⟩, ⟨true, some ⟨some ⟨0, 1, 0⟩, 1⟩⟩] =
      recomputeGlobalCoverage [⟨true, some ⟨some ⟨0, 1, 0⟩, 1⟩⟩] := by
  have hd : Real.sqrt ((0 : ℝ) * 0 + 1 * 1 + 0 * 0) ≠ 0 := by
    rw [show ((0 : ℝ) * 0 + 1 * 1 + 0 * 0) = 1 by norm_num, Real.sqrt_one]
    norm_num
  exact c1_strict_same_axis_domination_preserves_union [] [⟨true, some ⟨some ⟨0, 1, 0⟩, 1⟩⟩]
    ⟨0, 1, 0⟩ (1/2) 1 ⟨true, some ⟨some ⟨0, 1, 0⟩, 1⟩⟩ hd (by norm_num)
    (by simp) rfl rfl (by norm_num)
